import Mathlib

/-!
Verification of the diagram-text analysis layer of a browser-based Mermaid
diagram editor.  The embedding below is a direct shallow translation of three
source modules:

  * `diagramValidator` (`validateMermaidSyntax`, `quickValidate` and the
    per-type validators),
  * `diagramAnalyzer` (`analyzeDiagram`, the per-type structure extractors and
    the metadata/complexity/suggestion helpers),
  * `promptProcessor` (`analyzeIntent`, `extractRequirements`).

Strings are modelled as `String` (a wrapper around `List Char`); all scanning
is done on `List Char` with structural recursion so that every definition is
executable by the kernel.  Each JavaScript regular expression used by the
source is translated into an explicit matcher that reproduces the engine's
ordered-alternation and backtracking behaviour; the translation of each one is
documented at its definition.
-/

namespace MermaidUI

/-- The JavaScript `\s` / `trim` whitespace set, restricted to ASCII
(the inputs of this layer are ASCII diagram texts). -/
def isWSC (c : Char) : Bool :=
  c = ' ' || c = '\t' || c = '\n' || c = '\r' || c = '\x0b' || c = '\x0c'

/-- Character class `[A-Za-z0-9_-]`, the identifier class used by every
node/edge regex in the source. -/
def isIdChar (c : Char) : Bool :=
  c.isAlpha || c.isDigit || c = '_' || c = '-'

/-- Character class `\w` = `[A-Za-z0-9_]` (no dash). -/
def isWordChar (c : Char) : Bool :=
  c.isAlpha || c.isDigit || c = '_'

/-- `String.prototype.trim` on a character list. -/
def trimL (cs : List Char) : List Char :=
  ((cs.dropWhile isWSC).reverse.dropWhile isWSC).reverse

/-- `String.prototype.trim`. -/
def jsTrim (s : String) : String :=
  ⟨trimL s.toList⟩

/-- `text.split('\n')` on a character list.  Always returns at least one
(possibly empty) line, like the JavaScript original. -/
def splitLinesC : List Char → List (List Char)
  | [] => [[]]
  | c :: cs =>
    match splitLinesC cs with
    | [] => [[c]]
    | l :: ls => if c = '\n' then [] :: l :: ls else (c :: l) :: ls

/-- The raw line list of a diagram text (`diagram.split('\n')`). -/
def linesOf (s : String) : List (List Char) :=
  splitLinesC s.toList

/-- `haystack.includes(needle)` (substring containment). -/
def containsL (needle : List Char) : List Char → Bool
  | [] => needle.isEmpty
  | c :: t => needle.isPrefixOf (c :: t) || containsL needle t

/-- `line.startsWith(prefixStr)` on character lists. -/
def startsWithL (p : List Char) (cs : List Char) : Bool :=
  p.isPrefixOf cs

/-- `s.toLowerCase()` on a character list (ASCII lowering). -/
def toLowerL (cs : List Char) : List Char :=
  cs.map Char.toLower

/-- Number of occurrences of a character in a line
(`(line.match(new RegExp('\\' + c, 'g')) || []).length`). -/
def countChar (c : Char) (cs : List Char) : Nat :=
  (cs.filter (· = c)).length

/-- Split a character list on a separator character (`line.split(sep)`). -/
def splitOnCharC (sep : Char) : List Char → List (List Char)
  | [] => [[]]
  | c :: cs =>
    match splitOnCharC sep cs with
    | [] => [[c]]
    | l :: ls => if c = sep then [] :: l :: ls else (c :: l) :: ls

/-! ### Regex matchers

Each matcher translates one regular expression of the source, reproducing the
JavaScript engine's left-to-right alternation and greedy/lazy backtracking. -/

/-- Lazy `.*?X` for a one-character closer `X`: consume up to and including the
first occurrence of `close`, or fail when it does not occur.  Returns the
consumed characters (closer included) and the remainder. -/
def lazyClose (close : Char) : List Char → Option (List Char × List Char)
  | [] => none
  | c :: r =>
    if c = close then some ([c], r)
    else
      match lazyClose close r with
      | some (a, rest) => some (c :: a, rest)
      | none => none

/-- The shape group `(\[.*?\]|\(.*?\)|\{.*?\}|\(\(.*?\)\)|>.*?])` of the
flowchart node regex.  The alternatives are tried in source order; the
double-paren alternative `\(\(.*?\)\)` is unreachable because whenever it could
match, the earlier `\(.*?\)` already matches (if no `)` occurs at all, both
fail), so the translation needs only the first-match-per-head-character
cases below. -/
def matchShape : List Char → Option (List Char × List Char)
  | '[' :: r => (lazyClose ']' r).map (fun p => ('[' :: p.1, p.2))
  | '(' :: r => (lazyClose ')' r).map (fun p => ('(' :: p.1, p.2))
  | '{' :: r => (lazyClose '}' r).map (fun p => ('{' :: p.1, p.2))
  | '>' :: r => (lazyClose ']' r).map (fun p => ('>' :: p.1, p.2))
  | _ => none

/-- `line.match(/^\s*([A-Za-z0-9_-]+)(\[.*?\]|\(.*?\)|\{.*?\}|\(\(.*?\)\)|>.*?])/)`,
the flowchart node-definition regex (shared verbatim by validator and
analyzer).  Returns the captures `(id, shapeContent)`.  The greedy identifier
needs no backtracking because no identifier character can open a shape
group. -/
def matchFlowNode (line : List Char) : Option (List Char × List Char) :=
  let cs := line.dropWhile isWSC
  let id := cs.takeWhile isIdChar
  if id.isEmpty then none
  else (matchShape (cs.drop id.length)).map (fun p => (id, p.1))

/-- The arrow alternation `(-->|---|\-\.->\|-\.\-\|o--o\|<==>)` of the
*analyzer's* flowchart connection regex.  The escaped pipes make the third
alternative the single literal `-.->|-.-|o--o|<==>`. -/
def flowArrows : List (List Char) :=
  ["-->".toList, "---".toList, "-.->|-.-|o--o|<==>".toList]

/-- Optional trailing label group `(\s*SEP\s*(.+))?` (with `SEP` = `|` for
flowchart connections and `:` for state transitions).  `(.+)` is greedy and
runs to the end of the line; when everything after the separator is
whitespace, the inner `\s*` backtracks so that `(.+)` keeps the final
whitespace character.  Returns the captured label, or `none` when the whole
optional group matches empty. -/
def sepLabel (sep : Char) (r : List Char) : Option (List Char) :=
  let r1 := r.dropWhile isWSC
  match r1 with
  | c :: r2 =>
    if c = sep then
      if r2.isEmpty then none
      else some (r2.drop (min (r2.takeWhile isWSC).length (r2.length - 1)))
    else none
  | [] => none

/-- After the from-identifier of a flowchart connection: try the arrow
alternatives in order, each followed by `\s*([A-Za-z0-9_-]+)`; an arrow whose
continuation fails is backtracked to the next alternative. -/
def tryFlowArrows : List (List Char) → List Char → Option (List Char × List Char × Option (List Char))
  | [], _ => none
  | a :: as, r1 =>
    if a.isPrefixOf r1 then
      let r2 := (r1.drop a.length).dropWhile isWSC
      let toId := r2.takeWhile isIdChar
      if toId.isEmpty then tryFlowArrows as r1
      else some (a, toId, sepLabel '|' (r2.drop toId.length))
    else tryFlowArrows as r1

/-- Greedy from-identifier with backtracking: `-` belongs both to the
identifier class and to every arrow token, so the engine shrinks the
identifier one character at a time until the rest of the pattern matches. -/
def flowConnGo (cs : List Char) : Nat → Option (List Char × List Char × List Char × Option (List Char))
  | 0 => none
  | k + 1 =>
    match tryFlowArrows flowArrows ((cs.drop (k + 1)).dropWhile isWSC) with
    | some (a, t, lbl) => some (cs.take (k + 1), a, t, lbl)
    | none => flowConnGo cs k

/-- `line.match(/^\s*([A-Za-z0-9_-]+)\s*(-->|---|\-\.->\|-\.\-\|o--o\|<==>)\s*([A-Za-z0-9_-]+)(\s*\|\s*(.+))?/)`,
the analyzer's flowchart connection regex.  Returns
`(from, arrow, to, label?)`. -/
def matchFlowConn (line : List Char) : Option (List Char × List Char × List Char × Option (List Char)) :=
  let cs := line.dropWhile isWSC
  flowConnGo cs (cs.takeWhile isIdChar).length

/-- The analyzer's direction regex `^(TD|TB|BT|RL|LR)$`: the whole line is
exactly one of the five tokens. -/
def matchDirection (line : List Char) : Option (List Char) :=
  if line = "TD".toList || line = "TB".toList || line = "BT".toList
      || line = "RL".toList || line = "LR".toList then
    some line
  else none

/-- The validator's direction regex `^\s*(TD|TB|BT|RL|LR)$` (applied to an
already-trimmed line, but faithful to the leading `\s*`). -/
def matchDirectionV (line : List Char) : Bool :=
  (matchDirection (line.dropWhile isWSC)).isSome

/-- The sequence arrow alternation `(->>?|-->>?)` expanded into ordered
literal attempts: `->>` before `->` (greedy optional `>`), then `-->>`
before `-->`. -/
def seqArrows : List (List Char) :=
  ["->>".toList, "->".toList, "-->>".toList, "-->".toList]

/-- After a candidate sequence arrow: `\s*([A-Za-z0-9_-]+)\s*:\s*(.+)`.
The final `(.+)` keeps a trailing whitespace character when the text after
the colon is all whitespace (the inner `\s*` backtracks). -/
def seqAfterArrow (r2 : List Char) : Option (List Char × List Char) :=
  let r3 := r2.dropWhile isWSC
  let toId := r3.takeWhile isIdChar
  if toId.isEmpty then none
  else
    match (r3.drop toId.length).dropWhile isWSC with
    | ':' :: r5 =>
      if r5.isEmpty then none
      else some (toId, r5.drop (min (r5.takeWhile isWSC).length (r5.length - 1)))
    | _ => none

/-- Arrow alternation with continuation backtracking for sequence messages. -/
def trySeqArrows : List (List Char) → List Char → Option (List Char × List Char × List Char)
  | [], _ => none
  | a :: as, r1 =>
    if a.isPrefixOf r1 then
      match seqAfterArrow (r1.drop a.length) with
      | some (t, lbl) => some (a, t, lbl)
      | none => trySeqArrows as r1
    else trySeqArrows as r1

/-- From-identifier backtracking for sequence messages. -/
def seqMsgGo (cs : List Char) : Nat → Option (List Char × List Char × List Char × List Char)
  | 0 => none
  | k + 1 =>
    match trySeqArrows seqArrows ((cs.drop (k + 1)).dropWhile isWSC) with
    | some (a, t, lbl) => some (cs.take (k + 1), a, t, lbl)
    | none => seqMsgGo cs k

/-- `line.match(/^\s*([A-Za-z0-9_-]+)\s*(->>?|-->>?)\s*([A-Za-z0-9_-]+)\s*:\s*(.+)/)`,
the sequence message regex (shared by validator and analyzer).  Returns
`(from, arrow, to, label)`. -/
def matchSeqMessage (line : List Char) : Option (List Char × List Char × List Char × List Char) :=
  let cs := line.dropWhile isWSC
  seqMsgGo cs (cs.takeWhile isIdChar).length

/-- The alias tail `\s+as\s+(.+)$` of the participant regex. -/
def aliasMatch (t : List Char) : Option (List Char) :=
  let w := t.takeWhile isWSC
  if w.isEmpty then none
  else
    let r := t.drop w.length
    if "as".toList.isPrefixOf r then
      let r2 := r.drop 2
      let w2 := r2.takeWhile isWSC
      if w2.isEmpty then none
      else if (r2.drop w2.length).isEmpty then none
      else some (r2.drop w2.length)
    else none

/-- The lazy `(.+?)(\s+as\s+(.+))?$` tail of the participant regex: grow the
lazy group one character at a time and stop at the first point where either
the alias tail matches or the line ends. -/
def lazyGo (acc : List Char) : List Char → Option (List Char × Option (List Char))
  | [] => none
  | c :: t =>
    if t.isEmpty then some (acc ++ [c], none)
    else
      match aliasMatch t with
      | some al => some (acc ++ [c], some al)
      | none => lazyGo (acc ++ [c]) t

/-- Greedy `\s+` after the `participant` keyword, backtracking one whitespace
character at a time when the lazy tail cannot match (this only matters for
lines ending in whitespace). -/
def participantWsGo (rest : List Char) : Nat → Option (List Char × Option (List Char))
  | 0 => none
  | j + 1 =>
    match lazyGo [] (rest.drop (j + 1)) with
    | some r => some r
    | none => participantWsGo rest j

/-- `line.match(/^\s*participant\s+(.+?)(\s+as\s+(.+))?$/)`, the analyzer's
participant regex.  Returns `(id, alias?)`. -/
def matchParticipant (line : List Char) : Option (List Char × Option (List Char)) :=
  let cs := line.dropWhile isWSC
  if "participant".toList.isPrefixOf cs then
    let rest := cs.drop 11
    participantWsGo rest (rest.takeWhile isWSC).length
  else none

/-- `line.match(/^\s*class\s+([A-Za-z0-9_-]+)/)`, the analyzer's class
definition regex. -/
def matchClassDecl (line : List Char) : Option (List Char) :=
  let cs := line.dropWhile isWSC
  if "class".toList.isPrefixOf cs then
    let rest := cs.drop 5
    let w := rest.takeWhile isWSC
    if w.isEmpty then none
    else
      let id := (rest.drop w.length).takeWhile isIdChar
      if id.isEmpty then none else some id
  else none

/-- Generic relationship/transition matcher
`^\s*(ID)\s*(ARROWS)\s*(ID)` with an ordered arrow list, from-identifier
backtracking and arrow-continuation backtracking (no label group). -/
def tryRelArrows : List (List Char) → List Char → Option (List Char × List Char)
  | [], _ => none
  | a :: as, r1 =>
    if a.isPrefixOf r1 then
      let toId := ((r1.drop a.length).dropWhile isWSC).takeWhile isIdChar
      if toId.isEmpty then tryRelArrows as r1
      else some (a, toId)
    else tryRelArrows as r1

def relGo (arrows : List (List Char)) (cs : List Char) : Nat → Option (List Char × List Char × List Char)
  | 0 => none
  | k + 1 =>
    match tryRelArrows arrows ((cs.drop (k + 1)).dropWhile isWSC) with
    | some (a, t) => some (cs.take (k + 1), a, t)
    | none => relGo arrows cs k

def matchRel (arrows : List (List Char)) (line : List Char) : Option (List Char × List Char × List Char) :=
  let cs := line.dropWhile isWSC
  relGo arrows cs (cs.takeWhile isIdChar).length

/-- The arrow alternation `(-->|---|\-\.->\|-\.\-\|)` of the *validator's*
flowchart connection regex (part of `validateFlowchart`).  Unlike the
analyzer's, its escaped-pipe literal is the shorter `-.->|-.-|`. -/
def flowArrowsV : List (List Char) :=
  ["-->".toList, "---".toList, "-.->|-.-|".toList]

/-- `line.match(/^\s*([A-Za-z0-9_-]+)\s*(-->|---|\-\.->\|-\.\-\|)\s*([A-Za-z0-9_-]+)/)`,
the validator's flowchart connection regex (no label group).  Returns
`(from, arrow, to)`. -/
def matchFlowConnV (line : List Char) : Option (List Char × List Char × List Char) :=
  matchRel flowArrowsV line

/-- The analyzer's class relationship arrow alternation
`(--|\.\.|\|\||<\|--|\*--|\)--|\}--|o--)` in source order. -/
def classArrowsA : List (List Char) :=
  ["--".toList, "..".toList, "||".toList, "<|--".toList, "*--".toList,
    ")--".toList, "\x7d--".toList, "o--".toList]

/-- The validator's class relationship arrow alternation `(--|\.\.|\|\|)`. -/
def classArrowsV : List (List Char) :=
  ["--".toList, "..".toList, "||".toList]

/-- After the from-identifier of a state transition:
`\s*-->\s*(ID)(\s*:\s*(.+))?`. -/
def tryStateArrow (r1 : List Char) : Option (List Char × Option (List Char)) :=
  if "-->".toList.isPrefixOf r1 then
    let r2 := (r1.drop 3).dropWhile isWSC
    let toId := r2.takeWhile isIdChar
    if toId.isEmpty then none
    else some (toId, sepLabel ':' (r2.drop toId.length))
  else none

def stateTransGo (cs : List Char) : Nat → Option (List Char × List Char × Option (List Char))
  | 0 => none
  | k + 1 =>
    match tryStateArrow ((cs.drop (k + 1)).dropWhile isWSC) with
    | some (t, lbl) => some (cs.take (k + 1), t, lbl)
    | none => stateTransGo cs k

/-- `line.match(/^\s*([A-Za-z0-9_-]+)\s*-->\s*([A-Za-z0-9_-]+)(\s*:\s*(.+))?/)`,
the analyzer's state transition regex. -/
def matchStateTrans (line : List Char) : Option (List Char × List Char × Option (List Char)) :=
  let cs := line.dropWhile isWSC
  stateTransGo cs (cs.takeWhile isIdChar).length

/-- The validator's state transition regex
`^\s*([A-Za-z0-9_-]+)\s*-->\s*([A-Za-z0-9_-]+)` (no label group, same
matching behaviour). -/
def matchStateTransV (line : List Char) : Option (List Char × List Char) :=
  (matchStateTrans line).map (fun p => (p.1, p.2.1))

/-! ### Data model of `diagramAnalyzer` -/

/-- `DiagramNode` of `diagramAnalyzer`.  The `type` field carries the source's
string literal tags (`default`, `decision`, `process`, `start`, `end`,
`class`, `participant`). -/
structure DiagramNode where
  id : String
  label : Option String := none
  type : String
  shape : Option String := none
  style : Option String := none
deriving DecidableEq, Repr

/-- `DiagramConnection` of `diagramAnalyzer` (`from` and `to` are Lean
keywords, hence the field names `from_` and `to_`). -/
structure DiagramConnection where
  from_ : String
  to_ : String
  type : String
  label : Option String := none
deriving DecidableEq, Repr

/-- `DiagramStructure` of `diagramAnalyzer`. -/
structure DiagramStructure where
  nodes : List DiagramNode
  connections : List DiagramConnection
  clusters : Option (List String) := none
  direction : Option String := none
deriving DecidableEq, Repr

/-- `DiagramMetadata` of `diagramAnalyzer`. -/
structure DiagramMetadata where
  hasComments : Bool
  hasStyles : Bool
  hasSubgraphs : Bool
  lineCount : Nat
  estimatedRenderTime : Nat
deriving DecidableEq, Repr

/-- `DiagramAnalysis` of `diagramAnalyzer`. -/
structure DiagramAnalysis where
  type : String
  nodeCount : Nat
  connectionCount : Nat
  complexity : String
  structure_ : DiagramStructure
  suggestions : List String
  metadata : DiagramMetadata
deriving DecidableEq, Repr

/-- The placeholder `{} as DiagramMetadata` the per-type analyzers return
before `analyzeDiagram` overwrites the field. -/
def emptyMetadata : DiagramMetadata :=
  ⟨false, false, false, 0, 0⟩

/-! ### Shape / label / type helpers of `diagramAnalyzer` -/

/-- `getShapeType`. -/
def getShapeType (shapeContent : List Char) : String :=
  if startsWithL "[".toList shapeContent then "rectangle"
  else if startsWithL "(".toList shapeContent then
    (if startsWithL "((".toList shapeContent then "circle" else "rounded")
  else if startsWithL "\x7b".toList shapeContent then "rhombus"
  else if startsWithL ">".toList shapeContent then "flag"
  else "rectangle"

/-- `extractLabel`: `shapeContent.replace(/^[\[\(\{>]+|[\]\)\}>]+$/g, '').trim()` —
strip the leading run of `[`/`(`/`{`/`>` and the trailing run of
`]`/`)`/`}`/`>`, then trim. -/
def extractLabel (shapeContent : List Char) : String :=
  let openSet : Char → Bool := fun c => c = '[' || c = '(' || c = '{' || c = '>'
  let closeSet : Char → Bool := fun c => c = ']' || c = ')' || c = '}' || c = '>'
  ⟨trimL (((shapeContent.dropWhile openSet).reverse.dropWhile closeSet).reverse)⟩

/-- `getNodeType`. -/
def getNodeType (shape : String) : String :=
  if shape = "rhombus" then "decision"
  else if shape = "circle" then "start"
  else if shape = "rectangle" then "process"
  else "default"

/-- `getConnectionType`. -/
def getConnectionType (arrow : List Char) : String :=
  if containsL "-.".toList arrow then "dotted"
  else if containsL "=".toList arrow then "thick"
  else if containsL ">".toList arrow then "arrow"
  else "line"

/-- `getClassConnectionType` ("Simplified for now" in the source). -/
def getClassConnectionType (_connector : List Char) : String :=
  "line"

/-! ### The generic line-walking builder

All four per-type extractors of `diagramAnalyzer` share one loop shape: walk
the lines after the first, classify each line into *skip* / *direction* /
*node declaration* (unconditional push plus map insert) / *edge* (ensure both
endpoints exist, synthesizing a default node for an unseen id, then push the
connection).  The builder below captures that shape once; each extractor
supplies its line classifier and its synthesized-node constructor.  The
JavaScript `Map`/`Set` is modelled by its key list `seen` (its values are
never read, only `has` is). -/

inductive LineAct where
  | skip : LineAct
  | setDir : String → LineAct
  | decl : DiagramNode → LineAct
  | edge : String → String → DiagramConnection → LineAct
deriving DecidableEq, Repr

structure BuildState where
  nodes : List DiagramNode
  conns : List DiagramConnection
  seen : List String
  dir : Option String
deriving DecidableEq, Repr

/-- `if (!map.has(id)) { nodes.push(mk(id)); map.set(id, ...) }`. -/
def ensureNode (mk : String → DiagramNode) (s : BuildState) (x : String) : BuildState :=
  if x ∈ s.seen then s
  else { s with nodes := s.nodes ++ [mk x], seen := s.seen ++ [x] }

def buildStep (mk : String → DiagramNode) (classify : List Char → LineAct)
    (s : BuildState) (line : List Char) : BuildState :=
  match classify line with
  | .skip => s
  | .setDir d => { s with dir := some d }
  | .decl n => { s with nodes := s.nodes ++ [n], seen := s.seen ++ [n.id] }
  | .edge f t c =>
    let s2 := ensureNode mk (ensureNode mk s f) t
    { s2 with conns := s2.conns ++ [c] }

def buildRun (mk : String → DiagramNode) (classify : List Char → LineAct)
    (s : BuildState) : List (List Char) → BuildState
  | [] => s
  | l :: ls => buildRun mk classify (buildStep mk classify s l) ls

/-! ### Per-type line classifiers (`analyzeFlowchart`, `analyzeSequenceDiagram`,
`analyzeClassDiagram`, `analyzeStateDiagram` loop bodies) -/

/-- Loop body of `analyzeFlowchart`: comment skip, then direction, then node
definition, then connection, in source order. -/
def flowClassify (line : List Char) : LineAct :=
  if startsWithL "%".toList line then .skip
  else
    match matchDirection line with
    | some d => .setDir ⟨d⟩
    | none =>
      match matchFlowNode line with
      | some (id, shapeContent) =>
        .decl { id := ⟨id⟩, label := some (extractLabel shapeContent),
                type := getNodeType (getShapeType shapeContent),
                shape := some (getShapeType shapeContent) }
      | none =>
        match matchFlowConn line with
        | some (f, arrow, t, lbl) =>
          .edge ⟨f⟩ ⟨t⟩ { from_ := ⟨f⟩, to_ := ⟨t⟩,
                          type := getConnectionType arrow,
                          label := lbl.map (fun l => ⟨trimL l⟩) }
        | none => .skip

/-- Node synthesized by `analyzeFlowchart` for an endpoint never declared:
`{ id, type: 'default' }`. -/
def mkFlowRef (x : String) : DiagramNode :=
  { id := x, type := "default" }

/-- Loop body of `analyzeSequenceDiagram`: participant declaration
(label `alias || id`), then message. -/
def seqClassify (line : List Char) : LineAct :=
  if startsWithL "%".toList line then .skip
  else
    match matchParticipant line with
    | some (id, alias?) =>
      .decl { id := ⟨id⟩, label := some (alias?.elim ⟨id⟩ (fun a => ⟨a⟩)),
              type := "participant" }
    | none =>
      match matchSeqMessage line with
      | some (f, arrow, t, lbl) =>
        .edge ⟨f⟩ ⟨t⟩ { from_ := ⟨f⟩, to_ := ⟨t⟩,
                        type := if containsL ">>".toList arrow then "arrow" else "line",
                        label := some ⟨trimL lbl⟩ }
      | none => .skip

/-- Participant synthesized for a message endpoint not declared. -/
def mkSeqRef (x : String) : DiagramNode :=
  { id := x, label := some x, type := "participant" }

/-- Loop body of `analyzeClassDiagram`. -/
def classClassify (line : List Char) : LineAct :=
  if startsWithL "%".toList line then .skip
  else
    match matchClassDecl line with
    | some name => .decl { id := ⟨name⟩, label := some ⟨name⟩, type := "class" }
    | none =>
      match matchRel classArrowsA line with
      | some (f, connector, t) =>
        .edge ⟨f⟩ ⟨t⟩ { from_ := ⟨f⟩, to_ := ⟨t⟩,
                        type := getClassConnectionType connector }
      | none => .skip

def mkClassRef (x : String) : DiagramNode :=
  { id := x, label := some x, type := "class" }

/-- Loop body of `analyzeStateDiagram` (transitions only; it declares no
states on their own). -/
def stateClassify (line : List Char) : LineAct :=
  if startsWithL "%".toList line then .skip
  else
    match matchStateTrans line with
    | some (f, t, lbl) =>
      .edge ⟨f⟩ ⟨t⟩ { from_ := ⟨f⟩, to_ := ⟨t⟩, type := "arrow",
                      label := lbl.map (fun l => ⟨trimL l⟩) }
    | none => .skip

def mkStateRef (x : String) : DiagramNode :=
  { id := x, label := some x, type := "default" }

/-! ### The per-type extractors and `analyzeDiagram` -/

def initialBuild (dir : Option String) : BuildState :=
  { nodes := [], conns := [], seen := [], dir := dir }

/-- `analyzeFlowchart` (direction defaults to `'TD'`). -/
def analyzeFlowchart (lines : List (List Char)) : DiagramAnalysis :=
  let st := buildRun mkFlowRef flowClassify (initialBuild (some "TD")) lines.tail
  { type := "flowchart", nodeCount := st.nodes.length,
    connectionCount := st.conns.length, complexity := "simple",
    structure_ := { nodes := st.nodes, connections := st.conns, direction := st.dir },
    suggestions := [], metadata := emptyMetadata }

/-- `analyzeSequenceDiagram`. -/
def analyzeSequenceDiagram (lines : List (List Char)) : DiagramAnalysis :=
  let st := buildRun mkSeqRef seqClassify (initialBuild none) lines.tail
  { type := "sequenceDiagram", nodeCount := st.nodes.length,
    connectionCount := st.conns.length, complexity := "simple",
    structure_ := { nodes := st.nodes, connections := st.conns },
    suggestions := [], metadata := emptyMetadata }

/-- `analyzeClassDiagram`. -/
def analyzeClassDiagram (lines : List (List Char)) : DiagramAnalysis :=
  let st := buildRun mkClassRef classClassify (initialBuild none) lines.tail
  { type := "classDiagram", nodeCount := st.nodes.length,
    connectionCount := st.conns.length, complexity := "simple",
    structure_ := { nodes := st.nodes, connections := st.conns },
    suggestions := [], metadata := emptyMetadata }

/-- `analyzeStateDiagram`. -/
def analyzeStateDiagram (lines : List (List Char)) : DiagramAnalysis :=
  let st := buildRun mkStateRef stateClassify (initialBuild none) lines.tail
  { type := "stateDiagram", nodeCount := st.nodes.length,
    connectionCount := st.conns.length, complexity := "simple",
    structure_ := { nodes := st.nodes, connections := st.conns },
    suggestions := [], metadata := emptyMetadata }

/-- `analyzeGeneric`. -/
def analyzeGeneric (_lines : List (List Char)) : DiagramAnalysis :=
  { type := "unknown", nodeCount := 0, connectionCount := 0,
    complexity := "simple", structure_ := { nodes := [], connections := [] },
    suggestions := ["Unknown diagram type - consider using a supported type"],
    metadata := emptyMetadata }

/-- The type keyword alternation of `extractDiagramType`
`^(flowchart|graph|sequenceDiagram|classDiagram|stateDiagram|entityRelationshipDiagram|gantt|pie|journey|gitgraph|mindmap|timeline)`,
in source order. -/
def analyzerTypes : List String :=
  ["flowchart", "graph", "sequenceDiagram", "classDiagram", "stateDiagram",
    "entityRelationshipDiagram", "gantt", "pie", "journey", "gitgraph",
    "mindmap", "timeline"]

/-- `extractDiagramType(firstLine)`: the first alternative that is a literal
prefix of the line, else `'unknown'`. -/
def extractDiagramType (firstLine : List Char) : String :=
  match analyzerTypes.find? (fun t => startsWithL t.toList firstLine) with
  | some t => t
  | none => "unknown"

/-- `calculateRenderTime`: `Math.max(100, lineCount * 10)`. -/
def calculateRenderTime (lineCount : Nat) : Nat :=
  max 100 (lineCount * 10)

/-- `extractMetadata` (operating, like the source, on the analyzer's trimmed
non-empty line list). -/
def extractMetadata (lines : List (List Char)) : DiagramMetadata :=
  { hasComments := lines.any (fun l => startsWithL "%".toList (trimL l)),
    hasStyles := lines.any (fun l => containsL "style".toList l
      || containsL "fill:".toList l || containsL "stroke:".toList l),
    hasSubgraphs := lines.any (fun l => containsL "subgraph".toList l),
    lineCount := lines.length,
    estimatedRenderTime := calculateRenderTime lines.length }

/-- `calculateComplexity`. -/
def calculateComplexity (analysis : DiagramAnalysis) : String :=
  let totalElements := analysis.nodeCount + analysis.connectionCount
  if totalElements ≤ 5 then "simple"
  else if totalElements ≤ 15 then "moderate"
  else "complex"

/-- `generateAnalysisSuggestions`. -/
def generateAnalysisSuggestions (analysis : DiagramAnalysis) : List String :=
  (if analysis.nodeCount = 0 then ["Add nodes to your diagram"]
    else if analysis.nodeCount = 1 then ["Consider adding more nodes"] else [])
  ++ (if analysis.connectionCount = 0 ∧ analysis.nodeCount > 1 then
        ["Add connections between nodes"] else [])
  ++ (if ¬analysis.metadata.hasStyles ∧ analysis.nodeCount > 3 then
        ["Consider adding colors and styling"] else [])
  ++ (if ¬analysis.metadata.hasComments ∧ analysis.complexity = "complex" then
        ["Add comments to document complex parts"] else [])
  ++ (if analysis.complexity = "complex" then
        ["Consider breaking into smaller diagrams"] else [])

/-- `getEmptyAnalysis`. -/
def getEmptyAnalysis : DiagramAnalysis :=
  { type := "empty", nodeCount := 0, connectionCount := 0,
    complexity := "simple", structure_ := { nodes := [], connections := [] },
    suggestions := ["Start by adding a diagram type (e.g., flowchart TD)"],
    metadata := { hasComments := false, hasStyles := false,
                  hasSubgraphs := false, lineCount := 0,
                  estimatedRenderTime := 0 } }

/-- The analyzer's preprocessed line list:
`diagram.split('\n').map(line => line.trim()).filter(line => line.length > 0)`. -/
def processedLines (diagram : String) : List (List Char) :=
  ((linesOf diagram).map trimL).filter (fun l => !l.isEmpty)

/-- The `switch (type)` dispatch of `analyzeDiagram`. -/
def analyzeDispatch (type : String) (lines : List (List Char)) : DiagramAnalysis :=
  if type = "flowchart" ∨ type = "graph" then analyzeFlowchart lines
  else if type = "sequenceDiagram" then analyzeSequenceDiagram lines
  else if type = "classDiagram" then analyzeClassDiagram lines
  else if type = "stateDiagram" then analyzeStateDiagram lines
  else analyzeGeneric lines

/-- The field updates `analyzeDiagram` performs after the dispatch, in
mutation order (`type`, then `metadata`, then `complexity` computed from the
updated record, then `suggestions` computed from the updated record). -/
def finishAnalysis (type : String) (lines : List (List Char))
    (a : DiagramAnalysis) : DiagramAnalysis :=
  let a1 := { a with type := type, metadata := extractMetadata lines }
  let a2 := { a1 with complexity := calculateComplexity a1 }
  { a2 with suggestions := generateAnalysisSuggestions a2 }

/-- `analyzeDiagram`. -/
def analyzeDiagram (diagram : String) : DiagramAnalysis :=
  if jsTrim diagram = "" then getEmptyAnalysis
  else
    let lines := processedLines diagram
    let type := extractDiagramType (lines.headD [])
    finishAnalysis type lines (analyzeDispatch type lines)

/-! ### Data model of `diagramValidator` -/

/-- `ValidationError` (the `type` values used are `'syntax'`, `'semantic'`,
`'unknown'`). -/
structure ValidationError where
  line : Option Nat := none
  column : Option Nat := none
  message : String
  type : String
deriving DecidableEq, Repr

/-- `ValidationWarning` (the `type` values used are `'performance'`,
`'style'`, `'accessibility'`). -/
structure ValidationWarning where
  line : Option Nat := none
  column : Option Nat := none
  message : String
  type : String
deriving DecidableEq, Repr

/-- `ValidationResult`. -/
structure ValidationResult where
  isValid : Bool
  errors : List ValidationError
  warnings : List ValidationWarning
  suggestions : List String
deriving DecidableEq, Repr

/-- The contribution of one validator pass: the errors, warnings and
suggestions it pushes, in push order. -/
structure VOut where
  errors : List ValidationError := []
  warnings : List ValidationWarning := []
  suggestions : List String := []
deriving DecidableEq, Repr

/-! ### `validateFlowchart` -/

/-- `Set.add` modelled on a list of keys: append when absent (only membership
and size of the JavaScript `Set` are ever read). -/
def addSet (l : List (List Char)) (x : List Char) : List (List Char) :=
  if x ∈ l then l else l ++ [x]

/-- Loop state of `validateFlowchart`: the `nodes` and `connections` sets and
the warnings pushed inside the loop. -/
structure VFlowState where
  nodes : List (List Char)
  conns : List (List Char)
  warnings : List ValidationWarning
deriving DecidableEq, Repr

/-- One iteration of the `validateFlowchart` loop over `(index, rawLine)`
(the loop runs `i = 1 .. lines.length - 1` and trims each line; check order:
node definition, connection, direction, otherwise a style warning). -/
def vFlowStep (s : VFlowState) (p : Nat × List Char) : VFlowState :=
  let line := trimL p.2
  if line.isEmpty || startsWithL "%".toList line then s
  else
    match matchFlowNode line with
    | some (id, _) => { s with nodes := addSet s.nodes id }
    | none =>
      match matchFlowConnV line with
      | some (f, arrow, t) =>
        { s with nodes := addSet (addSet s.nodes f) t,
                 conns := addSet s.conns (f ++ arrow ++ t) }
      | none =>
        if matchDirectionV line then s
        else if line.length > 0 then
          { s with warnings := s.warnings ++
              [{ line := some (p.1 + 1),
                 message := "Potentially invalid syntax: \"" ++ ⟨line⟩ ++ "\"",
                 type := "style" }] }
        else s

def vFlowRun (s : VFlowState) : List (Nat × List Char) → VFlowState
  | [] => s
  | p :: ps => vFlowRun (vFlowStep s p) ps

/-- `validateFlowchart`: the loop followed by the summary pushes. -/
def validateFlowchart (lines : List (List Char)) : VOut :=
  let st := vFlowRun ⟨[], [], []⟩ (lines.enum.drop 1)
  { errors :=
      if st.nodes.length = 0 then
        [{ message := "No nodes found in flowchart", type := "semantic" }]
      else [],
    warnings := st.warnings ++
      (if st.nodes.length = 1 then
        [{ message := "Flowchart has only one node - consider adding connections",
           type := "style" }]
      else []),
    suggestions :=
      if st.conns.length = 0 ∧ st.nodes.length > 1 then
        ["Add connections between nodes using arrows (-->)"]
      else [] }

/-! ### `validateSequenceDiagram`

The loop's `activate`/`deactivate` and `note` regex branches only `continue`
and push nothing, so they need no translation: any line that is neither a
participant declaration nor a message leaves the state unchanged. -/

structure VSeqState where
  participants : List (List Char)
  hasMessages : Bool
deriving DecidableEq, Repr

def vSeqStep (s : VSeqState) (raw : List Char) : VSeqState :=
  let line := trimL raw
  if line.isEmpty || startsWithL "%".toList line then s
  else if startsWithL "participant ".toList line then
    -- `line.replace('participant ', '').trim()`: the first occurrence is the
    -- 12-character prefix itself.
    { s with participants := addSet s.participants (trimL (line.drop 12)) }
  else
    match matchSeqMessage line with
    | some (f, _, t, _) =>
      { participants := addSet (addSet s.participants f) t, hasMessages := true }
    | none => s

def vSeqRun (s : VSeqState) : List (List Char) → VSeqState
  | [] => s
  | l :: ls => vSeqRun (vSeqStep s l) ls

def validateSequenceDiagram (lines : List (List Char)) : VOut :=
  let st := vSeqRun ⟨[], false⟩ lines.tail
  { errors :=
      if st.participants.length = 0 then
        [{ message := "No participants found in sequence diagram", type := "semantic" }]
      else [],
    warnings :=
      if ¬st.hasMessages ∧ st.participants.length > 0 then
        [{ message := "No messages found between participants", type := "style" }]
      else [],
    suggestions :=
      if ¬st.hasMessages ∧ st.participants.length > 0 then
        ["Add messages between participants using arrows (->>, ->>)"]
      else [] }

/-! ### `validateClassDiagram` -/

structure VClassState where
  classes : List (List Char)
  hasRelationships : Bool
deriving DecidableEq, Repr

def vClassStep (s : VClassState) (raw : List Char) : VClassState :=
  let line := trimL raw
  if line.isEmpty || startsWithL "%".toList line then s
  else if startsWithL "class ".toList line then
    -- `const className = line.split(' ')[1]; if (className) classes.add(...)`.
    let className := ((splitOnCharC ' ' line).drop 1).headD []
    if ¬className.isEmpty then { s with classes := addSet s.classes className } else s
  else
    match matchRel classArrowsV line with
    | some (f, _, t) =>
      { classes := addSet (addSet s.classes f) t, hasRelationships := true }
    | none => s

def vClassRun (s : VClassState) : List (List Char) → VClassState
  | [] => s
  | l :: ls => vClassRun (vClassStep s l) ls

def validateClassDiagram (lines : List (List Char)) : VOut :=
  let st := vClassRun ⟨[], false⟩ lines.tail
  { errors :=
      if st.classes.length = 0 then
        [{ message := "No classes found in class diagram", type := "semantic" }]
      else [],
    warnings := [],
    suggestions :=
      if ¬st.hasRelationships ∧ st.classes.length > 1 then
        ["Add relationships between classes using connectors (--, .., ||)"]
      else [] }

/-! ### `validateStateDiagram` -/

structure VStateState where
  states : List (List Char)
  hasTransitions : Bool
deriving DecidableEq, Repr

def vStateStep (s : VStateState) (raw : List Char) : VStateState :=
  let line := trimL raw
  if line.isEmpty || startsWithL "%".toList line then s
  else
    match matchStateTransV line with
    | some (f, t) =>
      { states := addSet (addSet s.states f) t, hasTransitions := true }
    | none =>
      if containsL ":".toList line then
        -- `const stateName = line.split(':')[0].trim()`.
        let stateName := trimL (line.takeWhile (· ≠ ':'))
        if ¬stateName.isEmpty then { s with states := addSet s.states stateName } else s
      else s

def vStateRun (s : VStateState) : List (List Char) → VStateState
  | [] => s
  | l :: ls => vStateRun (vStateStep s l) ls

def validateStateDiagram (lines : List (List Char)) : VOut :=
  let st := vStateRun ⟨[], false⟩ lines.tail
  { errors :=
      if st.states.length = 0 then
        [{ message := "No states found in state diagram", type := "semantic" }]
      else [],
    warnings := [],
    suggestions :=
      if ¬st.hasTransitions ∧ st.states.length > 1 then
        ["Add transitions between states using arrows (-->)"]
      else [] }

/-- `validateGeneric`: the fallback for all other diagram types. -/
def validateGeneric (lines : List (List Char)) : VOut :=
  let contentLines := lines.tail.filter
    (fun l => !(trimL l).isEmpty && !startsWithL "%".toList (trimL l))
  if contentLines.length = 0 then
    { warnings := [{ message := "Diagram appears to be empty", type := "style" }],
      suggestions := ["Add content to your diagram"] }
  else {}

/-! ### `validateGeneral` (bracket balance and long lines, every line) -/

/-- The bracket pairs `['[]', '()', '{}']`, in source order. -/
def bracketPairs : List (Char × Char) :=
  [('[', ']'), ('(', ')'), ('{', '}')]

/-- Per-line unbalanced-bracket errors, in pair order. -/
def bracketErrors (p : Nat × List Char) : List ValidationError :=
  bracketPairs.filterMap (fun oc =>
    if countChar oc.1 p.2 ≠ countChar oc.2 p.2 then
      some { line := some (p.1 + 1),
             message := "Unbalanced " ++ (⟨[oc.1, oc.2]⟩ : String) ++ " brackets",
             type := "syntax" }
    else none)

def vGeneralStep (acc : List ValidationError × List ValidationWarning)
    (p : Nat × List Char) : List ValidationError × List ValidationWarning :=
  (acc.1 ++ bracketErrors p,
   acc.2 ++
     (if p.2.length > 200 then
       [{ line := some (p.1 + 1),
          message := "Very long line - consider breaking it up for readability",
          type := "style" }]
     else []))

def vGeneralRun (acc : List ValidationError × List ValidationWarning) :
    List (Nat × List Char) → List ValidationError × List ValidationWarning
  | [] => acc
  | p :: ps => vGeneralRun (vGeneralStep acc p) ps

def validateGeneral (lines : List (List Char)) : VOut :=
  let r := vGeneralRun ([], []) lines.enum
  { errors := r.1, warnings := r.2 }

/-! ### `validateMermaidSyntax` and `quickValidate` -/

/-- The `validTypes` list of `validateMermaidSyntax`. -/
def validTypes : List String :=
  ["flowchart", "graph", "sequenceDiagram", "classDiagram", "stateDiagram",
    "entityRelationshipDiagram", "gantt", "pie", "journey", "gitgraph",
    "mindmap", "timeline", "C4Context", "C4Container", "C4Component", "C4Dynamic"]

def joinWith (sep : String) : List String → String
  | [] => ""
  | [x] => x
  | x :: xs => x ++ sep ++ joinWith sep xs

/-- The type-specific dispatch (`switch (diagramType)`); an unmatched type
(including the empty string when no keyword was found) falls to
`validateGeneric`. -/
def validateDispatch (diagramType : String) (lines : List (List Char)) : VOut :=
  if diagramType = "flowchart" ∨ diagramType = "graph" then validateFlowchart lines
  else if diagramType = "sequenceDiagram" then validateSequenceDiagram lines
  else if diagramType = "classDiagram" then validateClassDiagram lines
  else if diagramType = "stateDiagram" then validateStateDiagram lines
  else validateGeneric lines

/-- `validateMermaidSyntax`. -/
def validateMermaidSyntax (diagram : String) : ValidationResult :=
  if jsTrim diagram = "" then
    { isValid := false,
      errors := [{ message := "Diagram is empty", type := "semantic" }],
      warnings := [],
      suggestions := ["Add a diagram type (e.g., flowchart, graph, sequenceDiagram)"] }
  else
    let lines := linesOf diagram
    let firstLine := trimL (lines.headD [])
    let foundType := validTypes.find? (fun t => startsWithL t.toList firstLine)
    let typeErrors : List ValidationError :=
      match foundType with
      | some _ => []
      | none =>
        [{ line := some 1,
           message := "Invalid or missing diagram type. Expected one of: "
             ++ joinWith ", " validTypes,
           type := "syntax" }]
    let typed := validateDispatch (foundType.getD "") lines
    let general := validateGeneral lines
    let errors := typeErrors ++ typed.errors ++ general.errors
    { isValid := errors.length == 0,
      errors := errors,
      warnings := typed.warnings ++ general.warnings,
      suggestions := typed.suggestions ++ general.suggestions }

/-- The `validTypes` list of `quickValidate` (ten entries only). -/
def quickValidTypes : List String :=
  ["flowchart", "graph", "sequenceDiagram", "classDiagram", "stateDiagram",
    "entityRelationshipDiagram", "gantt", "pie", "journey", "gitgraph"]

/-- `quickValidate`. -/
def quickValidate (diagram : String) : Bool :=
  if jsTrim diagram = "" then false
  else
    quickValidTypes.any
      (fun t => startsWithL t.toList (trimL ((linesOf diagram).headD [])))

/-! ### `promptProcessor`: `analyzeIntent` and `extractRequirements` -/

/-- `ProcessedPrompt` (`confidence` is an exact rational; the source's
constants are the decimal literals 0.9, 0.8, 0.7, 0.1). -/
structure ProcessedPrompt where
  intent : String
  confidence : ℚ
  requirements : Option (List String) := none
deriving DecidableEq, Repr

/-- `lowerPrompt.includes(kw)` for a `String` haystack already lowered. -/
def inclS (hay : List Char) (kw : String) : Bool :=
  containsL kw.toList hay

/-- Case-insensitive literal prefix test (`/i` flag). -/
def lowerPrefixOf (kw : List Char) (cs : List Char) : Bool :=
  kw.isPrefixOf (toLowerL (cs.take kw.length))

/-- The tail `["']?(\w+)["']?` of the requirements node regex: optional
opening quote (backtracked when no word character follows), a nonempty `\w`
run, optional closing quote.  Returns the remainder after the match. -/
def wordTail (r : List Char) : Option (List Char) :=
  match r with
  | [] => none
  | c :: r' =>
    if c = '"' || c = '\'' then
      let id := r'.takeWhile isWordChar
      if id.isEmpty then none
      else
        match r'.drop id.length with
        | q :: r3 => if q = '"' || q = '\'' then some r3 else some (q :: r3)
        | [] => some []
    else
      let id := r.takeWhile isWordChar
      if id.isEmpty then none
      else
        match r.drop id.length with
        | q :: r3 => if q = '"' || q = '\'' then some r3 else some (q :: r3)
        | [] => some []

/-- The keyword alternation `(?:node|box|step|element|component|entity)` in
source order (case-insensitive; the keywords have pairwise distinct prefixes,
so at most one can match at a position). -/
def nodeKeywords : List String :=
  ["node", "box", "step", "element", "component", "entity"]

/-- One attempt of the node-requirement regex
`(?:node|box|step|element|component|entity)\s+(?:called\s+)?["']?(\w+)["']?`
at the current position (`/i`).  The optional `(?:called\s+)?` group is
greedy: it is tried first and backtracked to absent when the tail fails.
Returns the remainder after the match. -/
def tryNodeMatchAt (cs : List Char) : Option (List Char) :=
  match nodeKeywords.find? (fun kw => lowerPrefixOf kw.toList cs) with
  | none => none
  | some kw =>
    let r1 := cs.drop kw.length
    let w := r1.takeWhile isWSC
    if w.isEmpty then none
    else
      let r2 := r1.drop w.length
      let withCalled : Option (List Char) :=
        if lowerPrefixOf "called".toList r2 then
          let r3 := r2.drop 6
          let w2 := r3.takeWhile isWSC
          if w2.isEmpty then none else wordTail (r3.drop w2.length)
        else none
      match withCalled with
      | some rest => some rest
      | none => wordTail r2

/-- The `/g` scan: collect every (non-overlapping) match left to right.  Fuel
is the input length; every successful match consumes at least the keyword, so
the fuel is never exhausted first. -/
def scanNodeMatches : Nat → List Char → List (List Char)
  | 0, _ => []
  | _ + 1, [] => []
  | fuel + 1, c :: t =>
    match tryNodeMatchAt (c :: t) with
    | some rest =>
      ((c :: t).take ((c :: t).length - rest.length)) :: scanNodeMatches fuel rest
    | none => scanNodeMatches fuel t

/-- `match.replace(/.*["']?(\w+)["']?.*/, '$1')`: the leading greedy `.*`
backtracks from the end, so the first position where the rest of the pattern
matches captures exactly the *last* `\w` character of the string (a preceding
optional quote and the trailing `.*` absorb the remainder); when the string
has no `\w` character at all, `replace` leaves it unchanged. -/
def replaceNodeName (m : List Char) : String :=
  match (m.filter isWordChar).getLast? with
  | some c => ⟨[c]⟩
  | none => ⟨m⟩

/-- `extractRequirements`. -/
def extractRequirements (prompt : String) : List String :=
  let lowerPrompt := toLowerL prompt.toList
  let nodeMatches := scanNodeMatches (prompt.toList.length + 1) prompt.toList
  (nodeMatches.map (fun m => "node: " ++ replaceNodeName m))
  ++ (if inclS lowerPrompt "connect" || inclS lowerPrompt "link"
        || inclS lowerPrompt "arrow" then ["connections: true"] else [])
  ++ (if inclS lowerPrompt "color" || inclS lowerPrompt "style"
        || inclS lowerPrompt "theme" then ["styling: custom"] else [])
  ++ (if inclS lowerPrompt "top to bottom" || inclS lowerPrompt "vertical" then
        ["direction: TB"]
      else if inclS lowerPrompt "left to right" || inclS lowerPrompt "horizontal" then
        ["direction: LR"]
      else [])

/-- `analyzeIntent`: six keyword tests in source priority order with the
source's literal confidence constants. -/
def analyzeIntent (prompt : String) (currentDiagram : String) : ProcessedPrompt :=
  let lowerPrompt := toLowerL prompt.toList
  if inclS lowerPrompt "create" || inclS lowerPrompt "make"
      || inclS lowerPrompt "build" || inclS lowerPrompt "generate"
      || (jsTrim currentDiagram = "" && inclS lowerPrompt "diagram") then
    { intent := "create", confidence := 0.9,
      requirements := some (extractRequirements prompt) }
  else if inclS lowerPrompt "add" || inclS lowerPrompt "remove"
      || inclS lowerPrompt "change" || inclS lowerPrompt "update"
      || inclS lowerPrompt "modify" || inclS lowerPrompt "edit"
      || inclS lowerPrompt "delete" || jsTrim currentDiagram ≠ "" then
    { intent := "modify", confidence := 0.8,
      requirements := some (extractRequirements prompt) }
  else if inclS lowerPrompt "explain" || inclS lowerPrompt "what"
      || inclS lowerPrompt "how" || inclS lowerPrompt "why"
      || inclS lowerPrompt "describe" then
    { intent := "explain", confidence := 0.7 }
  else if inclS lowerPrompt "help" || inclS lowerPrompt "how to"
      || inclS lowerPrompt "tutorial" || inclS lowerPrompt "guide"
      || inclS lowerPrompt "example" then
    { intent := "help", confidence := 0.8 }
  else if inclS lowerPrompt "export" || inclS lowerPrompt "download"
      || inclS lowerPrompt "save as" || inclS lowerPrompt "pdf"
      || inclS lowerPrompt "png" || inclS lowerPrompt "svg" then
    { intent := "export", confidence := 0.9 }
  else
    { intent := "unknown", confidence := 0.1 }

/-! ### Observers used by the claim statements -/

/-- Whether a line act is a node declaration. -/
def isDeclAct : LineAct → Bool
  | .decl _ => true
  | _ => false

/-- Whether a line act is an edge (connection / message / relationship /
transition). -/
def isEdgeAct : LineAct → Bool
  | .edge _ _ _ => true
  | _ => false

/-- A line the sequence analyzer treats as a participant declaration. -/
def isParticipantLine (line : List Char) : Bool :=
  isDeclAct (seqClassify line)

/-- A line the sequence analyzer treats as a message. -/
def isMessageLine (line : List Char) : Bool :=
  isEdgeAct (seqClassify line)

/-- The id list of an analysis result's node list. -/
def nodeIds (a : DiagramAnalysis) : List String :=
  a.structure_.nodes.map DiagramNode.id

/-- Whether a line declares the node id `x` under a given classifier. -/
def declaresB (cl : List Char → LineAct) (x : String) (line : List Char) : Bool :=
  match cl line with
  | .decl n => n.id == x
  | _ => false

/-- Whether a line references the id `x` as an edge endpoint under a given
classifier. -/
def refsB (cl : List Char → LineAct) (x : String) (line : List Char) : Bool :=
  match cl line with
  | .edge f t _ => f == x || t == x
  | _ => false

/-- The declared ids of a line list, one entry per declaration line. -/
def declIds (cl : List Char → LineAct) (r : List (List Char)) : List String :=
  r.filterMap (fun line =>
    match cl line with
    | .decl n => some n.id
    | _ => none)

/-- The endpoints referenced by a line (empty for non-edge lines). -/
def edgeEnds (cl : List Char → LineAct) (line : List Char) : List String :=
  match cl line with
  | .edge f t _ => [f, t]
  | _ => []

/-- No id referenced by an edge line is declared at that line or later. -/
def noLateDecl (cl : List Char → LineAct) : List (List Char) → Bool
  | [] => true
  | line :: v =>
    (edgeEnds cl line).all
      (fun x => (line :: v).all (fun l' => !declaresB cl x l'))
    && noLateDecl cl v

/-- The line classifier `analyzeDiagram`'s dispatch associates with a diagram
type (the identity on what each branch of the `switch` does per line;
unhandled types process no lines). -/
def classifierOf (type : String) : List Char → LineAct :=
  if type = "flowchart" ∨ type = "graph" then flowClassify
  else if type = "sequenceDiagram" then seqClassify
  else if type = "classDiagram" then classClassify
  else if type = "stateDiagram" then stateClassify
  else fun _ => .skip

/-- The synthesized-node constructor matching `classifierOf`. -/
def mkRefOf (type : String) : String → DiagramNode :=
  if type = "flowchart" ∨ type = "graph" then mkFlowRef
  else if type = "sequenceDiagram" then mkSeqRef
  else if type = "classDiagram" then mkClassRef
  else if type = "stateDiagram" then mkStateRef
  else fun x => { id := x, type := "default" }

/-- A raw validator line that `validateFlowchart` counts as a node
definition (trimmed, non-blank, not a comment, node regex matches). -/
def isVFlowDeclLine (raw : List Char) : Bool :=
  !(trimL raw).isEmpty && !startsWithL "%".toList (trimL raw)
    && (matchFlowNode (trimL raw)).isSome

/-- A raw validator line that `validateFlowchart` counts as a connection
(the node-definition check has priority). -/
def isVFlowConnLine (raw : List Char) : Bool :=
  !(trimL raw).isEmpty && !startsWithL "%".toList (trimL raw)
    && !(matchFlowNode (trimL raw)).isSome
    && (matchFlowConnV (trimL raw)).isSome

/-- Per-line balance of the three bracket pairs checked by
`validateGeneral`. -/
def lineBalanced (raw : List Char) : Bool :=
  bracketPairs.all (fun oc => countChar oc.1 raw == countChar oc.2 raw)

/-! ## Basic lemmas about blank input -/

theorem trimL_eq_nil_iff (cs : List Char) :
    trimL cs = [] ↔ ∀ c ∈ cs, isWSC c = true := by
  unfold trimL
  rw [List.reverse_eq_nil_iff, List.dropWhile_eq_nil_iff]
  constructor
  · intro h c hc
    rw [← List.takeWhile_append_dropWhile (p := isWSC) (l := cs)] at hc
    rcases List.mem_append.1 hc with h1 | h2
    · exact List.mem_takeWhile_imp h1
    · exact h _ (List.mem_reverse.2 h2)
  · intro h x hx
    exact h _ ((List.dropWhile_sublist (p := isWSC)).subset (List.mem_reverse.1 hx))

theorem jsTrim_eq_empty_iff (s : String) :
    jsTrim s = "" ↔ ∀ c ∈ s.toList, isWSC c = true := by
  unfold jsTrim
  rw [show ("" : String) = ⟨[]⟩ from rfl, String.ext_iff]
  exact trimL_eq_nil_iff s.toList

theorem splitLinesC_ne_nil (cs : List Char) : splitLinesC cs ≠ [] := by
  cases cs with
  | nil => simp [splitLinesC]
  | cons c cs =>
    unfold splitLinesC
    cases h : splitLinesC cs with
    | nil => simp
    | cons l ls => by_cases hc : c = '\n' <;> simp [hc]

theorem mem_splitLinesC {cs : List Char} {l : List Char}
    (hl : l ∈ splitLinesC cs) : ∀ c ∈ l, c ∈ cs := by
  induction cs generalizing l with
  | nil =>
    simp only [splitLinesC, List.mem_singleton] at hl
    subst hl; simp
  | cons c cs ih =>
    unfold splitLinesC at hl
    cases h : splitLinesC cs with
    | nil => exact absurd h (splitLinesC_ne_nil cs)
    | cons l0 ls =>
      simp only [h] at hl
      by_cases hc : c = '\n'
      · rw [if_pos hc] at hl
        rcases List.mem_cons.1 hl with rfl | hmem
        · simp
        · intro x hx
          exact List.mem_cons_of_mem _ (ih (l := l) (by rw [h]; exact hmem) x hx)
      · rw [if_neg hc] at hl
        rcases List.mem_cons.1 hl with rfl | hmem
        · intro x hx
          rcases List.mem_cons.1 hx with rfl | hx0
          · exact List.mem_cons_self _ _
          · exact List.mem_cons_of_mem _
              (ih (l := l0) (by rw [h]; exact List.mem_cons_self _ _) x hx0)
        · intro x hx
          exact List.mem_cons_of_mem _
            (ih (l := l) (by rw [h]; exact List.mem_cons_of_mem _ hmem) x hx)

theorem processedLines_eq_nil {d : String} (h : jsTrim d = "") :
    processedLines d = [] := by
  have hws := (jsTrim_eq_empty_iff d).1 h
  unfold processedLines
  rw [List.filter_eq_nil_iff]
  intro l hl
  rcases List.mem_map.1 hl with ⟨raw, hraw, rfl⟩
  have : trimL raw = [] :=
    (trimL_eq_nil_iff raw).2 (fun c hc => hws c (mem_splitLinesC hraw c hc))
  simp [this]

/-- A nonempty pattern whose first character is not whitespace is never a
prefix of an all-whitespace character list. -/
theorem startsWithL_false_of_allWS {cs : List Char}
    (h : ∀ c ∈ cs, isWSC c = true) {p : List Char} {k : Char} {kr : List Char}
    (hp : p = k :: kr) (hk : isWSC k = false) : startsWithL p cs = false := by
  subst hp
  cases cs with
  | nil => rfl
  | cons c cs' =>
    have hc := h c (List.mem_cons_self _ _)
    unfold startsWithL
    rw [List.isPrefixOf_cons₂]
    have hkc : (k == c) = false := by
      cases hb : (k == c) with
      | false => rfl
      | true =>
        have hkeq : k = c := beq_iff_eq.1 hb
        rw [hkeq, hc] at hk
        exact absurd hk (by simp)
    simp [hkc]

theorem extractDiagramType_of_allWS {cs : List Char}
    (h : ∀ c ∈ cs, isWSC c = true) : extractDiagramType cs = "unknown" := by
  unfold extractDiagramType
  have : analyzerTypes.find? (fun t => startsWithL t.toList cs) = none := by
    rw [List.find?_eq_none]
    intro t ht
    simp only [analyzerTypes, List.mem_cons, List.mem_singleton] at ht
    rcases ht with rfl | rfl | rfl | rfl | rfl | rfl | rfl | rfl | rfl | rfl | rfl | rfl | h0
    · simp [startsWithL_false_of_allWS h (k := 'f') rfl (by decide)]
    · simp [startsWithL_false_of_allWS h (k := 'g') rfl (by decide)]
    · simp [startsWithL_false_of_allWS h (k := 's') rfl (by decide)]
    · simp [startsWithL_false_of_allWS h (k := 'c') rfl (by decide)]
    · simp [startsWithL_false_of_allWS h (k := 's') rfl (by decide)]
    · simp [startsWithL_false_of_allWS h (k := 'e') rfl (by decide)]
    · simp [startsWithL_false_of_allWS h (k := 'g') rfl (by decide)]
    · simp [startsWithL_false_of_allWS h (k := 'p') rfl (by decide)]
    · simp [startsWithL_false_of_allWS h (k := 'j') rfl (by decide)]
    · simp [startsWithL_false_of_allWS h (k := 'g') rfl (by decide)]
    · simp [startsWithL_false_of_allWS h (k := 'm') rfl (by decide)]
    · simp [startsWithL_false_of_allWS h (k := 't') rfl (by decide)]
    · exact absurd h0 (List.not_mem_nil t)
  rw [this]

/-! ## Claim theorems -/

/-- C1: for every input string, `validateMermaidSyntax` returns `isValid`
true exactly when its error list is empty; warnings play no role, on the
early empty-input return path as well as on the main path (where `isValid`
is computed as `errors.length == 0` from the error list alone). -/
theorem validateMermaidSyntax_isValid_iff_no_errors (d : String) :
    (validateMermaidSyntax d).isValid = true ↔
      (validateMermaidSyntax d).errors = [] := by
  unfold validateMermaidSyntax
  by_cases h : jsTrim d = ""
  · simp [h]
  · rw [if_neg h]
    dsimp only
    simp [List.length_eq_zero]

/-- C7 (helper shape): the early-return result for blank input. -/
theorem validateMermaidSyntax_blank {d : String} (h : jsTrim d = "") :
    validateMermaidSyntax d =
      { isValid := false,
        errors := [{ message := "Diagram is empty", type := "semantic" }],
        warnings := [],
        suggestions := ["Add a diagram type (e.g., flowchart, graph, sequenceDiagram)"] } := by
  unfold validateMermaidSyntax
  rw [if_pos h]

/-- C7: empty (or blank-after-trim) input is a distinguished case: the
diagram-type classifier returns `unknown`, and `validateMermaidSyntax`
returns `isValid` false with exactly the single semantic error
"Diagram is empty" and zero warnings. -/
theorem blank_input_distinguished (s : String) (h : jsTrim s = "") :
    extractDiagramType s.toList = "unknown"
    ∧ (validateMermaidSyntax s).isValid = false
    ∧ (validateMermaidSyntax s).errors =
        [{ message := "Diagram is empty", type := "semantic" }]
    ∧ (validateMermaidSyntax s).warnings = [] := by
  refine ⟨extractDiagramType_of_allWS ((jsTrim_eq_empty_iff s).1 h), ?_, ?_, ?_⟩ <;>
    rw [validateMermaidSyntax_blank h]

/-- C7 witness: the theorem applied to the concrete inputs `""` and `"  \n "`. -/
theorem blank_input_distinguished_witness :
    (jsTrim "" = "" ∧ extractDiagramType "".toList = "unknown"
      ∧ (validateMermaidSyntax "").errors =
          [{ message := "Diagram is empty", type := "semantic" }]
      ∧ (validateMermaidSyntax "").warnings = [])
    ∧ (jsTrim "  \n " = ""
      ∧ extractDiagramType "  \n ".toList = "unknown") := by
  refine ⟨⟨by decide, ?_, ?_, ?_⟩, by decide, ?_⟩
  · exact (blank_input_distinguished "" (by decide)).1
  · exact (blank_input_distinguished "" (by decide)).2.2.1
  · exact (blank_input_distinguished "" (by decide)).2.2.2
  · exact (blank_input_distinguished "  \n " (by decide)).1

theorem finishAnalysis_metadata (t : String) (lines : List (List Char))
    (a : DiagramAnalysis) :
    (finishAnalysis t lines a).metadata = extractMetadata lines := rfl

theorem finishAnalysis_structure (t : String) (lines : List (List Char))
    (a : DiagramAnalysis) :
    (finishAnalysis t lines a).structure_ = a.structure_ := rfl

theorem finishAnalysis_counts (t : String) (lines : List (List Char))
    (a : DiagramAnalysis) :
    (finishAnalysis t lines a).nodeCount = a.nodeCount
    ∧ (finishAnalysis t lines a).connectionCount = a.connectionCount :=
  ⟨rfl, rfl⟩

/-- C9 counterexample: on `"flowchart TD\n\nA[x]"` (three literal
newline-separated segments, one of them blank) the analyzer reports
`lineCount = 2`, because it counts the trimmed non-blank lines, not the
literal segments. -/
theorem lineCount_not_literal_counterexample :
    (analyzeDiagram "flowchart TD\n\nA[x]").metadata.lineCount = 2
    ∧ (linesOf "flowchart TD\n\nA[x]").length = 3
    ∧ (2 : Nat) ≠ 3 := by decide

/-- C9 (amended): for every input text, `metadata.lineCount` equals the
number of lines that remain after trimming each newline-separated segment
and discarding the blank ones (0 for blank input). -/
theorem analyzeDiagram_lineCount (d : String) :
    (analyzeDiagram d).metadata.lineCount = (processedLines d).length := by
  unfold analyzeDiagram
  by_cases h : jsTrim d = ""
  · rw [if_pos h, processedLines_eq_nil h]
    rfl
  · rw [if_neg h]
    rfl

/-- C2 counterexample: on `"flowchart TD\nA[Start] --> B[End]"` the claimed
result (2 nodes, 1 arrow connection, no warnings) is false: the node-definition
regex matches the connection line first (id `A`, shape `[Start]`) and the loop
`continue`s, so `B` and the edge are never extracted, and the validator emits
the isolated-node warning. -/
theorem flowchart_example_counterexample :
    (analyzeDiagram "flowchart TD\nA[Start] --> B[End]").nodeCount ≠ 2
    ∧ (analyzeDiagram "flowchart TD\nA[Start] --> B[End]").connectionCount ≠ 1
    ∧ (validateMermaidSyntax "flowchart TD\nA[Start] --> B[End]").warnings ≠ [] := by
  decide

/-- C2 (amended): for the input `"flowchart TD\nA[Start] --> B[End]"` the
classifier returns `flowchart`; `validateMermaidSyntax` returns `isValid`
true with no errors and exactly the one isolated-node style warning; and
`analyzeDiagram` produces exactly one node (`A`, label "Start", role
process), zero connections, direction `TD` (the default) and complexity
`simple`. -/
theorem flowchart_example_amended :
    (analyzeDiagram "flowchart TD\nA[Start] --> B[End]").type = "flowchart"
    ∧ (validateMermaidSyntax "flowchart TD\nA[Start] --> B[End]").isValid = true
    ∧ (validateMermaidSyntax "flowchart TD\nA[Start] --> B[End]").errors = []
    ∧ (validateMermaidSyntax "flowchart TD\nA[Start] --> B[End]").warnings =
        [{ message := "Flowchart has only one node - consider adding connections",
           type := "style" }]
    ∧ (analyzeDiagram "flowchart TD\nA[Start] --> B[End]").structure_.nodes =
        [{ id := "A", label := some "Start", type := "process",
           shape := some "rectangle" }]
    ∧ (analyzeDiagram "flowchart TD\nA[Start] --> B[End]").structure_.connections = []
    ∧ (analyzeDiagram "flowchart TD\nA[Start] --> B[End]").structure_.direction = some "TD"
    ∧ (analyzeDiagram "flowchart TD\nA[Start] --> B[End]").complexity = "simple" := by
  decide

/-- C10: `quickValidate` returns true exactly when the input is non-blank
after trimming and its first line, trimmed, starts with one of its ten
keywords; and because that list omits `mindmap` (among others) while
`validateMermaidSyntax` accepts it, the input `"mindmap"` yields no
validation error at all yet `quickValidate` rejects it. -/
theorem quickValidate_spec :
    (∀ d : String, quickValidate d = true ↔
      (jsTrim d ≠ "" ∧ ∃ t ∈ quickValidTypes,
        startsWithL t.toList (trimL ((linesOf d).headD [])) = true))
    ∧ (validateMermaidSyntax "mindmap").errors = []
    ∧ quickValidate "mindmap" = false := by
  refine ⟨?_, by decide, by decide⟩
  intro d
  unfold quickValidate
  by_cases h : jsTrim d = ""
  · simp [h]
  · simp [h, List.any_eq_true]

/-- C3: `analyzeIntent` tests the lower-cased prompt against the six keyword
sets in priority order create, modify, explain, help, export, unknown with
the fixed per-branch confidence constants 0.9 / 0.8 / 0.7 / 0.8 / 0.9 / 0.1
(first conjunct group: the confidence is determined by the chosen intent with
exactly those constants); when the current diagram is non-empty the result is
never `unknown` (nor explain/help/export) but defaults to `modify` unless a
create keyword fires; and on the concrete example
`analyzeIntent("add a new step", "flowchart TD\nA-->B")` the intent is
`modify` with confidence 0.8. -/
theorem analyzeIntent_spec :
    ((analyzeIntent "add a new step" "flowchart TD\nA-->B").intent = "modify"
      ∧ (analyzeIntent "add a new step" "flowchart TD\nA-->B").confidence = 0.8)
    ∧ (∀ p d : String, jsTrim d ≠ "" →
        (analyzeIntent p d).intent = "create" ∨ (analyzeIntent p d).intent = "modify")
    ∧ (∀ p d : String,
        ((analyzeIntent p d).intent = "create" → (analyzeIntent p d).confidence = 0.9)
        ∧ ((analyzeIntent p d).intent = "modify" → (analyzeIntent p d).confidence = 0.8)
        ∧ ((analyzeIntent p d).intent = "explain" → (analyzeIntent p d).confidence = 0.7)
        ∧ ((analyzeIntent p d).intent = "help" → (analyzeIntent p d).confidence = 0.8)
        ∧ ((analyzeIntent p d).intent = "export" → (analyzeIntent p d).confidence = 0.9)
        ∧ ((analyzeIntent p d).intent = "unknown" → (analyzeIntent p d).confidence = 0.1)) := by
  refine ⟨⟨by decide, by rfl⟩, ?_, ?_⟩
  · intro p d h
    unfold analyzeIntent
    dsimp only
    split_ifs with h1 h2
    · left; rfl
    · right; rfl
    all_goals
      exact absurd (by simp only [Bool.or_eq_true, decide_eq_true_eq]; exact Or.inr h) h2
  · intro p d
    unfold analyzeIntent
    dsimp only
    split_ifs <;>
      refine ⟨?_, ?_, ?_, ?_, ?_, ?_⟩ <;>
        (intro hx; first
          | rfl
          | exact absurd hx (ne_of_beq_false rfl))

/-- C3 witness: the universally quantified parts applied at concrete
inputs, with their hypotheses discharged. -/
theorem analyzeIntent_spec_witness :
    jsTrim "flowchart" ≠ ""
    ∧ ((analyzeIntent "zzz" "flowchart").intent = "create"
        ∨ (analyzeIntent "zzz" "flowchart").intent = "modify")
    ∧ ((analyzeIntent "zzz" "flowchart").intent = "modify" →
        (analyzeIntent "zzz" "flowchart").confidence = 0.8) :=
  ⟨by decide, analyzeIntent_spec.2.1 "zzz" "flowchart" (by decide),
    (analyzeIntent_spec.2.2 "zzz" "flowchart").2.1⟩

/-! ## The generic builder: step lemmas and invariants -/

theorem buildStep_skip {mk : String → DiagramNode} {cl : List Char → LineAct}
    {s : BuildState} {l : List Char} (h : cl l = .skip) :
    buildStep mk cl s l = s := by
  unfold buildStep; rw [h]

theorem buildStep_dir {mk : String → DiagramNode} {cl : List Char → LineAct}
    {s : BuildState} {l : List Char} {dd : String} (h : cl l = .setDir dd) :
    buildStep mk cl s l = { s with dir := some dd } := by
  unfold buildStep; rw [h]

theorem buildStep_decl {mk : String → DiagramNode} {cl : List Char → LineAct}
    {s : BuildState} {l : List Char} {n : DiagramNode} (h : cl l = .decl n) :
    buildStep mk cl s l = { s with nodes := s.nodes ++ [n], seen := s.seen ++ [n.id] } := by
  unfold buildStep; rw [h]

theorem buildStep_edge {mk : String → DiagramNode} {cl : List Char → LineAct}
    {s : BuildState} {l : List Char} {f t : String} {c : DiagramConnection}
    (h : cl l = .edge f t c) :
    buildStep mk cl s l =
      { ensureNode mk (ensureNode mk s f) t with
        conns := (ensureNode mk (ensureNode mk s f) t).conns ++ [c] } := by
  unfold buildStep; rw [h]

/-- When no line of `r` is an edge line, the builder appends exactly one node
per declaration line and no connection. -/
theorem buildRun_no_edge (mk : String → DiagramNode) (cl : List Char → LineAct) :
    ∀ (r : List (List Char)) (s : BuildState),
      (∀ l ∈ r, isEdgeAct (cl l) = false) →
      (buildRun mk cl s r).nodes.length
          = s.nodes.length + r.countP (fun l => isDeclAct (cl l))
      ∧ (buildRun mk cl s r).conns = s.conns := by
  intro r
  induction r with
  | nil => intro s _; simp [buildRun]
  | cons l v ih =>
    intro s h
    have hl := h l (List.mem_cons_self _ _)
    have hv : ∀ l' ∈ v, isEdgeAct (cl l') = false :=
      fun l' hm => h l' (List.mem_cons_of_mem _ hm)
    rw [buildRun]
    cases hc : cl l with
    | skip =>
      rw [buildStep_skip hc]
      rcases ih s hv with ⟨h1, h2⟩
      refine ⟨?_, h2⟩
      rw [h1, List.countP_cons]
      simp [isDeclAct, hc]
    | setDir dd =>
      rw [buildStep_dir hc]
      rcases ih { s with dir := some dd } hv with ⟨h1, h2⟩
      refine ⟨?_, h2⟩
      rw [h1, List.countP_cons]
      simp [isDeclAct, hc]
    | decl n =>
      rw [buildStep_decl hc]
      rcases ih { s with nodes := s.nodes ++ [n], seen := s.seen ++ [n.id] } hv with ⟨h1, h2⟩
      refine ⟨?_, h2⟩
      rw [h1, List.countP_cons]
      simp [isDeclAct, hc, List.length_append]
      omega
    | edge f t c =>
      rw [hc] at hl
      simp [isEdgeAct] at hl

/-! ## Dispatch reduction lemmas -/

theorem analyzeDiagram_eq_finish {d : String} (h : jsTrim d ≠ "") :
    analyzeDiagram d =
      finishAnalysis (extractDiagramType ((processedLines d).headD []))
        (processedLines d)
        (analyzeDispatch (extractDiagramType ((processedLines d).headD []))
          (processedLines d)) := by
  unfold analyzeDiagram
  rw [if_neg h]

theorem analyzeDispatch_seq (lines : List (List Char)) :
    analyzeDispatch "sequenceDiagram" lines = analyzeSequenceDiagram lines := by
  unfold analyzeDispatch
  rw [if_neg (by decide), if_pos rfl]

/-- C8: for a sequence-type text with `P` participant-declaration lines and
no message line, `analyzeDiagram` produces exactly `P` nodes and zero
connections; in particular `"sequenceDiagram\nparticipant Alice"` yields one
node with role `participant` and no edge. -/
theorem analyze_sequence_participants (d : String) (P : Nat)
    (htype : extractDiagramType ((processedLines d).headD []) = "sequenceDiagram")
    (hP : (processedLines d).tail.countP (fun l => isParticipantLine l) = P)
    (hP1 : 1 ≤ P)
    (hmsg : ∀ l ∈ (processedLines d).tail, isMessageLine l = false) :
    ((analyzeDiagram d).nodeCount = P ∧ (analyzeDiagram d).connectionCount = 0)
    ∧ (analyzeDiagram "sequenceDiagram\nparticipant Alice").structure_.nodes
        = [{ id := "Alice", label := some "Alice", type := "participant" }]
    ∧ (analyzeDiagram "sequenceDiagram\nparticipant Alice").connectionCount = 0 := by
  refine ⟨?_, by decide, by decide⟩
  have hne : jsTrim d ≠ "" := by
    intro hb
    rw [processedLines_eq_nil hb] at htype
    exact absurd htype (by decide)
  rw [analyzeDiagram_eq_finish hne, htype, analyzeDispatch_seq]
  rcases buildRun_no_edge mkSeqRef seqClassify (processedLines d).tail
      (initialBuild none) (fun l hm => hmsg l hm) with ⟨h1, h2⟩
  constructor
  · show (buildRun mkSeqRef seqClassify (initialBuild none)
      (processedLines d).tail).nodes.length = P
    rw [h1, show (initialBuild none).nodes.length = 0 from rfl, Nat.zero_add]
    simpa [isParticipantLine] using hP
  · show (buildRun mkSeqRef seqClassify (initialBuild none)
      (processedLines d).tail).conns.length = 0
    rw [h2]
    rfl

/-- C8 witness: the theorem applied to
`"sequenceDiagram\nparticipant Alice\nparticipant Bob"` with `P = 2`. -/
theorem analyze_sequence_participants_witness :
    (analyzeDiagram "sequenceDiagram\nparticipant Alice\nparticipant Bob").nodeCount = 2
    ∧ (analyzeDiagram "sequenceDiagram\nparticipant Alice\nparticipant Bob").connectionCount = 0 :=
  (analyze_sequence_participants "sequenceDiagram\nparticipant Alice\nparticipant Bob"
    2 (by decide) (by decide) (by decide) (by decide)).1

/-! ## Lemmas about the flowchart validator loop -/

theorem countP_enum_drop (pred : List Char → Bool) (lines : List (List Char)) :
    (lines.enum.drop 1).countP (fun p => pred p.2) = (lines.drop 1).countP pred := by
  have h1 : (lines.enum.drop 1).map Prod.snd = lines.drop 1 := by
    rw [List.map_drop, List.enum_map_snd]
  calc (lines.enum.drop 1).countP (fun p => pred p.2)
      = ((lines.enum.drop 1).map Prod.snd).countP pred := by
        rw [List.countP_map]; rfl
    _ = (lines.drop 1).countP pred := by rw [h1]

theorem mem_enum_snd {lines : List (List Char)} {p : Nat × List Char}
    (hp : p ∈ lines.enum) : p.2 ∈ lines := by
  have h := List.mem_map_of_mem Prod.snd hp
  rwa [List.enum_map_snd] at h

theorem vFlowStep_unchanged {s : VFlowState} {p : Nat × List Char}
    (hd : isVFlowDeclLine p.2 = false) (hc : isVFlowConnLine p.2 = false) :
    (vFlowStep s p).nodes = s.nodes ∧ (vFlowStep s p).conns = s.conns := by
  unfold vFlowStep
  by_cases h0 : ((trimL p.2).isEmpty || startsWithL "%".toList (trimL p.2)) = true
  · rw [if_pos h0]; exact ⟨rfl, rfl⟩
  · rw [if_neg h0]
    have h0' := Bool.or_eq_false_iff.1 (Bool.eq_false_iff.2 h0)
    cases hm : matchFlowNode (trimL p.2) with
    | some v =>
      unfold isVFlowDeclLine at hd
      rw [hm, h0'.1, h0'.2] at hd
      simp at hd
    | none =>
      cases hcm : matchFlowConnV (trimL p.2) with
      | some v =>
        unfold isVFlowConnLine at hc
        rw [hm, hcm, h0'.1, h0'.2] at hc
        simp at hc
      | none =>
        dsimp only
        split
        · exact ⟨rfl, rfl⟩
        · split
          · exact ⟨rfl, rfl⟩
          · exact ⟨rfl, rfl⟩

theorem vFlowStep_decl {s : VFlowState} {p : Nat × List Char}
    (hd : isVFlowDeclLine p.2 = true) :
    ∃ id, (vFlowStep s p).nodes = addSet s.nodes id
      ∧ (vFlowStep s p).conns = s.conns := by
  unfold isVFlowDeclLine at hd
  rw [Bool.and_eq_true, Bool.and_eq_true] at hd
  rcases hd with ⟨⟨he, hst⟩, hsome⟩
  rw [Bool.not_eq_true'] at he hst
  rcases Option.isSome_iff_exists.1 hsome with ⟨⟨id, shape⟩, hm⟩
  refine ⟨id, ?_⟩
  unfold vFlowStep
  rw [if_neg (by rw [he, hst]; decide), hm]
  exact ⟨rfl, rfl⟩

theorem vFlowRun_unchanged :
    ∀ (ps : List (Nat × List Char)) (s : VFlowState),
      (∀ p ∈ ps, isVFlowDeclLine p.2 = false ∧ isVFlowConnLine p.2 = false) →
      (vFlowRun s ps).nodes = s.nodes ∧ (vFlowRun s ps).conns = s.conns := by
  intro ps
  induction ps with
  | nil => intro s _; exact ⟨rfl, rfl⟩
  | cons p ps ih =>
    intro s h
    rcases h p (List.mem_cons_self _ _) with ⟨hd, hc⟩
    rcases vFlowStep_unchanged (s := s) hd hc with ⟨h1, h2⟩
    rw [vFlowRun]
    rcases ih (vFlowStep s p) (fun q hq => h q (List.mem_cons_of_mem _ hq)) with ⟨h3, h4⟩
    exact ⟨by rw [h3, h1], by rw [h4, h2]⟩

theorem vFlowRun_single_decl :
    ∀ (ps : List (Nat × List Char)) (s : VFlowState),
      ps.countP (fun p => isVFlowDeclLine p.2) = 1 →
      ps.countP (fun p => isVFlowConnLine p.2) = 0 →
      s.nodes = [] → s.conns = [] →
      (vFlowRun s ps).nodes.length = 1 ∧ (vFlowRun s ps).conns = [] := by
  intro ps
  induction ps with
  | nil => intro s h1 _ _ _; simp [List.countP_nil] at h1
  | cons p ps ih =>
    intro s h1 h0 hn hc
    rw [List.countP_cons] at h1 h0
    rw [vFlowRun]
    by_cases hd : isVFlowDeclLine p.2 = true
    · rcases vFlowStep_decl (s := s) hd with ⟨id, hnodes, hconns⟩
      have hrest1 : ps.countP (fun p => isVFlowDeclLine p.2) = 0 := by
        rw [if_pos hd] at h1; omega
      have hrest0 : ps.countP (fun p => isVFlowConnLine p.2) = 0 := by omega
      have hall : ∀ q ∈ ps, isVFlowDeclLine q.2 = false ∧ isVFlowConnLine q.2 = false := by
        intro q hq
        exact ⟨Bool.eq_false_iff.2 (List.countP_eq_zero.1 hrest1 q hq),
          Bool.eq_false_iff.2 (List.countP_eq_zero.1 hrest0 q hq)⟩
      rcases vFlowRun_unchanged ps (vFlowStep s p) hall with ⟨h2, h3⟩
      rw [h2, h3, hnodes, hconns, hn, hc]
      exact ⟨by simp [addSet], rfl⟩
    · have hdf : isVFlowDeclLine p.2 = false := Bool.eq_false_iff.2 hd
      have hcf : isVFlowConnLine p.2 = false := by
        rcases Bool.eq_false_or_eq_true (isVFlowConnLine p.2) with hx | hx
        · rw [if_pos hx] at h0; omega
        · exact hx
      rcases vFlowStep_unchanged (s := s) hdf hcf with ⟨h2, h3⟩
      refine ih (vFlowStep s p) ?_ ?_ (by rw [h2, hn]) (by rw [h3, hc])
      · rw [if_neg (by simp [hdf])] at h1; omega
      · rw [if_neg (by simp [hcf])] at h0; omega

/-! ## Lemmas about `validateGeneral` -/

theorem bracketErrors_eq_nil {p : Nat × List Char} (h : lineBalanced p.2 = true) :
    bracketErrors p = [] := by
  unfold bracketErrors
  rw [List.filterMap_eq_nil_iff]
  intro oc hoc
  have hb := List.all_eq_true.1 h oc hoc
  simp only [beq_iff_eq] at hb
  simp [hb]

theorem vGeneralRun_no_errors :
    ∀ (ps : List (Nat × List Char)) (acc : List ValidationError × List ValidationWarning),
      (∀ p ∈ ps, lineBalanced p.2 = true) →
      (vGeneralRun acc ps).1 = acc.1 := by
  intro ps
  induction ps with
  | nil => intro acc _; rfl
  | cons p ps ih =>
    intro acc h
    rw [vGeneralRun, ih _ (fun q hq => h q (List.mem_cons_of_mem _ hq))]
    unfold vGeneralStep
    rw [bracketErrors_eq_nil (h p (List.mem_cons_self _ _))]
    simp

theorem validateGeneral_no_errors {lines : List (List Char)}
    (h : ∀ l ∈ lines, lineBalanced l = true) :
    (validateGeneral lines).errors = [] := by
  show (vGeneralRun ([], []) lines.enum).1 = []
  exact vGeneralRun_no_errors lines.enum ([], []) (fun p hp => h p.2 (mem_enum_snd hp))

/-! ## Locating the diagram type keyword -/

theorem startsWithL_head {k : Char} {kr cs : List Char}
    (h : startsWithL (k :: kr) cs = true) : ∃ t, cs = k :: t := by
  unfold startsWithL at h
  cases cs with
  | nil => simp at h
  | cons c cs' =>
    rw [List.isPrefixOf_cons₂, Bool.and_eq_true] at h
    rcases h with ⟨h1, _⟩
    exact ⟨cs', by rw [beq_iff_eq.1 h1]⟩

theorem startsWithL_cons_ne {k c : Char} {kr t : List Char} (hne : (k == c) = false) :
    startsWithL (k :: kr) (c :: t) = false := by
  unfold startsWithL
  rw [List.isPrefixOf_cons₂, hne, Bool.false_and]

theorem find?_cons_pos' {α : Type} (p : α → Bool) (a : α) (l : List α)
    (h : p a = true) : List.find? p (a :: l) = some a := by
  simp only [List.find?, h]

theorem find?_cons_neg' {α : Type} (p : α → Bool) (a : α) (l : List α)
    (h : p a = false) : List.find? p (a :: l) = List.find? p l := by
  simp only [List.find?, h]

theorem validTypes_find_flowchart {firstLine : List Char}
    (h : startsWithL "flowchart".toList firstLine = true) :
    validTypes.find? (fun t => startsWithL t.toList firstLine) = some "flowchart" := by
  unfold validTypes
  exact find?_cons_pos' (fun t => startsWithL t.toList firstLine) "flowchart" _ h

theorem validTypes_find_graph {firstLine : List Char}
    (h : startsWithL "graph".toList firstLine = true) :
    validTypes.find? (fun t => startsWithL t.toList firstLine) = some "graph" := by
  rcases startsWithL_head (k := 'g') h with ⟨t_1, rfl⟩
  unfold validTypes
  rw [find?_cons_neg' (fun t => startsWithL t.toList ('g' :: t_1)) "flowchart" _ (by
      show startsWithL "flowchart".toList ('g' :: t_1) = false
      rw [show ("flowchart".toList : List Char) = 'f' :: "lowchart".toList from rfl]
      exact startsWithL_cons_ne (by decide))]
  exact find?_cons_pos' (fun t => startsWithL t.toList ('g' :: t_1)) "graph" _ h

/-- Shared core of the C5 amended theorem, parameterized by the found type
keyword. -/
theorem validate_flow_single_decl_core (d : String) (ty : String)
    (hfind : validTypes.find?
      (fun t => startsWithL t.toList (trimL ((linesOf d).headD []))) = some ty)
    (hty : ty = "flowchart" ∨ ty = "graph")
    (hne : jsTrim d ≠ "")
    (hdecl : ((linesOf d).drop 1).countP (fun l => isVFlowDeclLine l) = 1)
    (hconn : ((linesOf d).drop 1).countP (fun l => isVFlowConnLine l) = 0)
    (hbal : ∀ l ∈ linesOf d, lineBalanced l = true) :
    (validateMermaidSyntax d).errors = []
    ∧ ({ message := "Flowchart has only one node - consider adding connections",
         type := "style" } : ValidationWarning) ∈ (validateMermaidSyntax d).warnings := by
  unfold validateMermaidSyntax
  rw [if_neg hne]
  dsimp only
  rw [hfind]
  dsimp only [Option.getD]
  rw [show validateDispatch ty (linesOf d) = validateFlowchart (linesOf d) from by
      unfold validateDispatch; rw [if_pos hty]]
  have hdecl' : ((linesOf d).enum.drop 1).countP (fun p => isVFlowDeclLine p.2) = 1 := by
    rw [countP_enum_drop]; exact hdecl
  have hconn' : ((linesOf d).enum.drop 1).countP (fun p => isVFlowConnLine p.2) = 0 := by
    rw [countP_enum_drop]; exact hconn
  rcases vFlowRun_single_decl ((linesOf d).enum.drop 1) ⟨[], [], []⟩ hdecl' hconn' rfl rfl
    with ⟨hlen, hcn⟩
  have hgen := validateGeneral_no_errors hbal
  constructor
  · rw [hgen]
    have hfe : (validateFlowchart (linesOf d)).errors = [] := by
      show (if (vFlowRun ⟨[], [], []⟩ ((linesOf d).enum.drop 1)).nodes.length = 0 then
          [({ message := "No nodes found in flowchart", type := "semantic" } : ValidationError)]
        else []) = []
      rw [if_neg (by rw [hlen]; omega)]
    rw [hfe]
    rfl
  · apply List.mem_append_left
    show _ ∈ (vFlowRun ⟨[], [], []⟩ ((linesOf d).enum.drop 1)).warnings ++
      (if (vFlowRun ⟨[], [], []⟩ ((linesOf d).enum.drop 1)).nodes.length = 1 then
        [({ message := "Flowchart has only one node - consider adding connections",
            type := "style" } : ValidationWarning)]
      else [])
    rw [if_pos hlen]
    exact List.mem_append_right _ (List.mem_singleton.2 rfl)

/-- C5 counterexample: `"flowchart\nA[x]\n("` is a flow-type text with
exactly one node-declaration line and no connection line, yet
`validateMermaidSyntax` returns an error (the unbalanced-bracket check of
`validateGeneral` fires on the third line), so the claim's "zero errors" is
false as universally stated. -/
theorem single_node_flowchart_counterexample :
    (startsWithL "flowchart".toList
        (trimL ((linesOf "flowchart\nA[x]\n(").headD [])) = true)
    ∧ ((linesOf "flowchart\nA[x]\n(").drop 1).countP (fun l => isVFlowDeclLine l) = 1
    ∧ ((linesOf "flowchart\nA[x]\n(").drop 1).countP (fun l => isVFlowConnLine l) = 0
    ∧ (validateMermaidSyntax "flowchart\nA[x]\n(").errors ≠ [] := by
  decide

/-- C5 (amended): for every flow-type diagram text with exactly one
node-declaration line, no connection lines, *and per-line balanced
`[]`/`()`/`{}` brackets*, `validateMermaidSyntax` returns zero errors and at
least one warning (the isolated-node warning is in the warning list). -/
theorem single_node_flowchart_valid (d : String)
    (hflow : startsWithL "flowchart".toList (trimL ((linesOf d).headD [])) = true
      ∨ startsWithL "graph".toList (trimL ((linesOf d).headD [])) = true)
    (hdecl : ((linesOf d).drop 1).countP (fun l => isVFlowDeclLine l) = 1)
    (hconn : ((linesOf d).drop 1).countP (fun l => isVFlowConnLine l) = 0)
    (hbal : ∀ l ∈ linesOf d, lineBalanced l = true) :
    (validateMermaidSyntax d).errors = []
    ∧ ({ message := "Flowchart has only one node - consider adding connections",
         type := "style" } : ValidationWarning) ∈ (validateMermaidSyntax d).warnings := by
  have hne : jsTrim d ≠ "" := by
    intro hb
    have hws := (jsTrim_eq_empty_iff d).1 hb
    have hhead : trimL ((linesOf d).headD []) = [] := by
      rcases hL : linesOf d with _ | ⟨l0, ls⟩
      · exact absurd hL (splitLinesC_ne_nil d.toList)
      · show trimL ((l0 :: ls).headD []) = []
        refine (trimL_eq_nil_iff l0).2 (fun c hc => hws c ?_)
        exact mem_splitLinesC
          (by rw [show splitLinesC d.toList = l0 :: ls from hL]
              exact List.mem_cons_self l0 ls) c hc
    rcases hflow with hf | hf <;> rw [hhead] at hf <;> exact absurd hf (by decide)
  rcases hflow with hf | hf
  · exact validate_flow_single_decl_core d "flowchart"
      (validTypes_find_flowchart hf) (Or.inl rfl) hne hdecl hconn hbal
  · exact validate_flow_single_decl_core d "graph"
      (validTypes_find_graph hf) (Or.inr rfl) hne hdecl hconn hbal

/-- C5 witness: the amended theorem applied to `"flowchart\nA[hi]"`. -/
theorem single_node_flowchart_valid_witness :
    (validateMermaidSyntax "flowchart\nA[hi]").errors = []
    ∧ ({ message := "Flowchart has only one node - consider adding connections",
         type := "style" } : ValidationWarning)
        ∈ (validateMermaidSyntax "flowchart\nA[hi]").warnings :=
  single_node_flowchart_valid "flowchart\nA[hi]"
    (Or.inl (by decide)) (by decide) (by decide) (by decide)

/-! ## Builder invariants: seen-set, node multiplicities, edge closure -/

theorem ensureNode_seen_mono {mk : String → DiagramNode} {s : BuildState}
    {y : String} : s.seen ⊆ (ensureNode mk s y).seen := by
  unfold ensureNode
  split
  · exact fun z hz => hz
  · exact fun z hz => List.mem_append_left _ hz

theorem ensureNode_mem_seen {mk : String → DiagramNode} {s : BuildState}
    {y : String} : y ∈ (ensureNode mk s y).seen := by
  unfold ensureNode
  split
  next h => exact h
  next h => exact List.mem_append_right _ (List.mem_singleton.2 rfl)

theorem ensureNode_seen_inv {mk : String → DiagramNode} {s : BuildState}
    {y x : String} (hx : x ∈ (ensureNode mk s y).seen) : x ∈ s.seen ∨ x = y := by
  unfold ensureNode at hx
  split at hx
  · exact Or.inl hx
  · rcases List.mem_append.1 hx with h | h
    · exact Or.inl h
    · exact Or.inr (List.mem_singleton.1 h)

theorem ensureNode_count {mk : String → DiagramNode} (hmk : ∀ y, (mk y).id = y)
    {s : BuildState} {x y : String}
    (hJ : (s.nodes.map DiagramNode.id).count x = if x ∈ s.seen then 1 else 0) :
    ((ensureNode mk s y).nodes.map DiagramNode.id).count x
      = if x ∈ (ensureNode mk s y).seen then 1 else 0 := by
  unfold ensureNode
  split
  · exact hJ
  next hy =>
    dsimp only
    rw [List.map_append, List.count_append]
    by_cases hxy : y = x
    · subst hxy
      rw [if_neg hy] at hJ
      rw [hJ, if_pos (List.mem_append_right _ (List.mem_singleton.2 rfl))]
      simp [hmk y]
    · rw [hJ]
      have hbeq : (x == y) = false := beq_eq_false_iff_ne.2 (fun h => hxy h.symm)
      have hc0 : (List.map DiagramNode.id [mk y]).count x = 0 := by
        rw [show List.map DiagramNode.id [mk y] = [y] from by rw [List.map_cons, hmk y]; rfl]
        simp [List.count_cons, hbeq]
        exact hxy
      rw [hc0]
      have hmem : (x ∈ s.seen ++ [y]) ↔ x ∈ s.seen := by
        rw [List.mem_append, List.mem_singleton]
        exact ⟨fun h => h.resolve_right (fun h' => hxy h'.symm), Or.inl⟩
      by_cases hx : x ∈ s.seen
      · rw [if_pos hx, if_pos (hmem.2 hx)]
      · rw [if_neg hx, if_neg (fun h => hx (hmem.1 h))]

theorem ensureNode_conns {mk : String → DiagramNode} {s : BuildState}
    {y : String} : (ensureNode mk s y).conns = s.conns := by
  unfold ensureNode
  split <;> rfl

theorem buildStep_count_inv (mk : String → DiagramNode) (cl : List Char → LineAct)
    (hmk : ∀ y, (mk y).id = y) {s : BuildState} {l : List Char} {x : String}
    (hJ : (s.nodes.map DiagramNode.id).count x = if x ∈ s.seen then 1 else 0)
    (hnd : x ∈ s.seen → declaresB cl x l = false) :
    ((buildStep mk cl s l).nodes.map DiagramNode.id).count x
      = if x ∈ (buildStep mk cl s l).seen then 1 else 0 := by
  cases hc : cl l with
  | skip => rw [buildStep_skip hc]; exact hJ
  | setDir dd => rw [buildStep_dir hc]; exact hJ
  | decl n =>
    rw [buildStep_decl hc]
    dsimp only
    rw [List.map_append, List.count_append]
    by_cases hnx : n.id = x
    · have hxs : x ∉ s.seen := by
        intro hx
        have hf := hnd hx
        unfold declaresB at hf
        rw [hc] at hf
        simp [hnx] at hf
      rw [if_neg hxs] at hJ
      rw [hJ, if_pos (List.mem_append_right _ (List.mem_singleton.2 hnx.symm))]
      simp [hnx]
    · have hbeq : (x == n.id) = false := beq_eq_false_iff_ne.2 (fun h => hnx h.symm)
      have hc0 : (List.map DiagramNode.id [n]).count x = 0 := by
        rw [show List.map DiagramNode.id [n] = [n.id] from rfl]
        simp [List.count_cons, hbeq]
        exact hnx
      rw [hc0]
      have hmem : (x ∈ s.seen ++ [n.id]) ↔ x ∈ s.seen := by
        rw [List.mem_append, List.mem_singleton]
        exact ⟨fun h => h.resolve_right (fun h' => hnx h'.symm), Or.inl⟩
      by_cases hx : x ∈ s.seen
      · rw [hJ, if_pos hx, if_pos (hmem.2 hx)]
      · rw [hJ, if_neg hx, if_neg (fun h => hx (hmem.1 h))]
  | edge f t c =>
    rw [buildStep_edge hc]
    dsimp only
    exact ensureNode_count hmk (ensureNode_count hmk hJ)

theorem buildStep_seen_mono (mk : String → DiagramNode) (cl : List Char → LineAct)
    {s : BuildState} {l : List Char} : s.seen ⊆ (buildStep mk cl s l).seen := by
  cases hc : cl l with
  | skip => rw [buildStep_skip hc]; exact fun z hz => hz
  | setDir dd => rw [buildStep_dir hc]; exact fun z hz => hz
  | decl n => rw [buildStep_decl hc]; exact fun z hz => List.mem_append_left _ hz
  | edge f t c =>
    rw [buildStep_edge hc]
    intro z hz
    exact ensureNode_seen_mono (ensureNode_seen_mono hz)

theorem buildRun_seen_mono (mk : String → DiagramNode) (cl : List Char → LineAct) :
    ∀ (r : List (List Char)) (s : BuildState),
      s.seen ⊆ (buildRun mk cl s r).seen := by
  intro r
  induction r with
  | nil => intro s z hz; exact hz
  | cons l v ih =>
    intro s z hz
    rw [buildRun]
    exact ih _ (buildStep_seen_mono mk cl hz)

theorem buildStep_edge_seen (mk : String → DiagramNode) (cl : List Char → LineAct)
    {s : BuildState} {l : List Char} {f t : String} {c : DiagramConnection}
    (hc : cl l = .edge f t c) :
    f ∈ (buildStep mk cl s l).seen ∧ t ∈ (buildStep mk cl s l).seen := by
  rw [buildStep_edge hc]
  exact ⟨ensureNode_seen_mono ensureNode_mem_seen, ensureNode_mem_seen⟩

theorem buildRun_append (mk : String → DiagramNode) (cl : List Char → LineAct) :
    ∀ (u v : List (List Char)) (s : BuildState),
      buildRun mk cl s (u ++ v) = buildRun mk cl (buildRun mk cl s u) v := by
  intro u
  induction u with
  | nil => intro v s; rfl
  | cons l u ih => intro v s; rw [List.cons_append, buildRun, buildRun, ih]

theorem buildRun_count_undeclared (mk : String → DiagramNode)
    (cl : List Char → LineAct) (hmk : ∀ y, (mk y).id = y) :
    ∀ (r : List (List Char)) (s : BuildState) (x : String),
      (∀ l ∈ r, declaresB cl x l = false) →
      ((s.nodes.map DiagramNode.id).count x = if x ∈ s.seen then 1 else 0) →
      ((buildRun mk cl s r).nodes.map DiagramNode.id).count x
        = if x ∈ (buildRun mk cl s r).seen then 1 else 0 := by
  intro r
  induction r with
  | nil => intro s x _ hJ; exact hJ
  | cons l v ih =>
    intro s x h hJ
    rw [buildRun]
    exact ih _ x (fun l' hm => h l' (List.mem_cons_of_mem _ hm))
      (buildStep_count_inv mk cl hmk hJ (fun _ => h l (List.mem_cons_self _ _)))

/-- An id referenced by an edge line and never declared ends up in the node
list exactly once. -/
theorem buildRun_ref_count (mk : String → DiagramNode) (cl : List Char → LineAct)
    (hmk : ∀ y, (mk y).id = y) (r : List (List Char)) (dir : Option String)
    (x : String)
    (hdecl : ∀ l ∈ r, declaresB cl x l = false)
    (href : ∃ l ∈ r, refsB cl x l = true) :
    ((buildRun mk cl (initialBuild dir) r).nodes.map DiagramNode.id).count x = 1 := by
  have hJ := buildRun_count_undeclared mk cl hmk r (initialBuild dir) x hdecl
    (by simp [initialBuild])
  rcases href with ⟨l, hl, hrl⟩
  rcases List.append_of_mem hl with ⟨u, v, rfl⟩
  have hedge : ∃ f t c, cl l = .edge f t c ∧ (x = f ∨ x = t) := by
    unfold refsB at hrl
    cases hc : cl l with
    | edge f t c =>
      rw [hc] at hrl
      simp only [Bool.or_eq_true, beq_iff_eq] at hrl
      exact ⟨f, t, c, rfl, hrl.imp Eq.symm Eq.symm⟩
    | skip => rw [hc] at hrl; simp at hrl
    | setDir dd => rw [hc] at hrl; simp at hrl
    | decl n => rw [hc] at hrl; simp at hrl
  rcases hedge with ⟨f, t, c, hc, hx⟩
  have hmem : x ∈ (buildRun mk cl (initialBuild dir) (u ++ l :: v)).seen := by
    rw [buildRun_append]
    rw [show buildRun mk cl (buildRun mk cl (initialBuild dir) u) (l :: v)
        = buildRun mk cl (buildStep mk cl (buildRun mk cl (initialBuild dir) u) l) v
      from rfl]
    apply buildRun_seen_mono
    rcases buildStep_edge_seen mk cl hc with ⟨hf, ht⟩
    rcases hx with rfl | rfl
    · exact hf
    · exact ht
  rw [hJ, if_pos hmem]

/-- Every connection in any builder state reachable from the initial state
references only ids already present in the node list (the synthesized node is
pushed before the connection). -/
theorem buildRun_conns_closed (mk : String → DiagramNode) (cl : List Char → LineAct)
    (hmk : ∀ y, (mk y).id = y)
    (hok : ∀ (l : List Char) (f t : String) (c : DiagramConnection),
      cl l = .edge f t c → c.from_ = f ∧ c.to_ = t) :
    ∀ (r : List (List Char)) (s : BuildState),
      (∀ c ∈ s.conns, c.from_ ∈ s.seen ∧ c.to_ ∈ s.seen) →
      (∀ y, y ∈ s.seen ↔ y ∈ s.nodes.map DiagramNode.id) →
      (∀ c ∈ (buildRun mk cl s r).conns,
        c.from_ ∈ (buildRun mk cl s r).nodes.map DiagramNode.id
        ∧ c.to_ ∈ (buildRun mk cl s r).nodes.map DiagramNode.id) := by
  intro r
  induction r with
  | nil =>
    intro s hconns hiff c hc
    exact ⟨(hiff _).1 (hconns c hc).1, (hiff _).1 (hconns c hc).2⟩
  | cons l v ih =>
    intro s hconns hiff
    rw [buildRun]
    have hensure : ∀ (s' : BuildState) (y z : String),
        (∀ w, w ∈ s'.seen ↔ w ∈ s'.nodes.map DiagramNode.id) →
        (z ∈ (ensureNode mk s' y).seen ↔ z ∈ (ensureNode mk s' y).nodes.map DiagramNode.id) := by
      intro s' y z hiff'
      unfold ensureNode
      split
      · exact hiff' z
      · dsimp only
        rw [List.map_append, List.mem_append, List.mem_append, List.mem_singleton]
        constructor
        · rintro (h | h)
          · exact Or.inl ((hiff' z).1 h)
          · exact Or.inr (by simp [hmk y, h])
        · rintro (h | h)
          · exact Or.inl ((hiff' z).2 h)
          · refine Or.inr ?_
            simp [hmk y] at h
            simp [h]
    apply ih
    · -- the step keeps conns closed under seen
      intro c hc
      cases hcl : cl l with
      | skip =>
        rw [buildStep_skip hcl] at hc ⊢
        exact hconns c hc
      | setDir dd =>
        rw [buildStep_dir hcl] at hc ⊢
        exact hconns c hc
      | decl n =>
        rw [buildStep_decl hcl] at hc ⊢
        rcases hconns c hc with ⟨h1, h2⟩
        exact ⟨List.mem_append_left _ h1, List.mem_append_left _ h2⟩
      | edge f t cc =>
        rw [buildStep_edge hcl] at hc ⊢
        dsimp only at hc ⊢
        rw [ensureNode_conns, ensureNode_conns] at hc
        rcases List.mem_append.1 hc with h | h
        · rcases hconns c h with ⟨h1, h2⟩
          exact ⟨ensureNode_seen_mono (ensureNode_seen_mono h1),
            ensureNode_seen_mono (ensureNode_seen_mono h2)⟩
        · rcases List.mem_singleton.1 h with rfl
          rcases hok l f t c hcl with ⟨hf', ht'⟩
          rw [hf', ht']
          exact ⟨ensureNode_seen_mono ensureNode_mem_seen, ensureNode_mem_seen⟩
    · -- the step keeps seen ↔ node ids
      intro y
      cases hcl : cl l with
      | skip => rw [buildStep_skip hcl]; exact hiff y
      | setDir dd => rw [buildStep_dir hcl]; exact hiff y
      | decl n =>
        rw [buildStep_decl hcl]
        dsimp only
        rw [List.map_append, List.mem_append, List.mem_append]
        exact or_congr (hiff y) (by simp)
      | edge f t cc =>
        rw [buildStep_edge hcl]
        dsimp only
        exact hensure _ t y (fun w => hensure _ f w hiff)

/-! ## The four classifiers store edges whose record matches the endpoints -/

theorem flowClassify_edge_ok (l : List Char) (f t : String) (c : DiagramConnection)
    (h : flowClassify l = .edge f t c) : c.from_ = f ∧ c.to_ = t := by
  unfold flowClassify at h
  repeat' split at h
  all_goals
    first
      | (injection h with h1 h2 h3; subst h1; subst h2; subst h3; exact ⟨rfl, rfl⟩)
      | injection h

theorem seqClassify_edge_ok (l : List Char) (f t : String) (c : DiagramConnection)
    (h : seqClassify l = .edge f t c) : c.from_ = f ∧ c.to_ = t := by
  unfold seqClassify at h
  repeat' split at h
  all_goals
    first
      | (injection h with h1 h2 h3; subst h1; subst h2; subst h3; exact ⟨rfl, rfl⟩)
      | injection h

theorem classClassify_edge_ok (l : List Char) (f t : String) (c : DiagramConnection)
    (h : classClassify l = .edge f t c) : c.from_ = f ∧ c.to_ = t := by
  unfold classClassify at h
  repeat' split at h
  all_goals
    first
      | (injection h with h1 h2 h3; subst h1; subst h2; subst h3; exact ⟨rfl, rfl⟩)
      | injection h

theorem stateClassify_edge_ok (l : List Char) (f t : String) (c : DiagramConnection)
    (h : stateClassify l = .edge f t c) : c.from_ = f ∧ c.to_ = t := by
  unfold stateClassify at h
  repeat' split at h
  all_goals
    first
      | (injection h with h1 h2 h3; subst h1; subst h2; subst h3; exact ⟨rfl, rfl⟩)
      | injection h

/-! ## Remaining dispatch lemmas -/

theorem analyzeDispatch_flow {t : String} (h : t = "flowchart" ∨ t = "graph")
    (lines : List (List Char)) : analyzeDispatch t lines = analyzeFlowchart lines := by
  unfold analyzeDispatch
  rw [if_pos h]

theorem analyzeDispatch_class (lines : List (List Char)) :
    analyzeDispatch "classDiagram" lines = analyzeClassDiagram lines := by
  unfold analyzeDispatch
  rw [if_neg (by decide), if_neg (by decide), if_pos rfl]

theorem analyzeDispatch_state (lines : List (List Char)) :
    analyzeDispatch "stateDiagram" lines = analyzeStateDiagram lines := by
  unfold analyzeDispatch
  rw [if_neg (by decide), if_neg (by decide), if_neg (by decide), if_pos rfl]

/-- C4: referenced-node guarantee.  For a flow-, sequence- or state-type
input, an id that some connection / message / transition line references but
that no line declares occurs in `analyzeDiagram`'s node list exactly once;
and (ordering) after any prefix of the line walk, every stored connection's
endpoints already have node records (the synthesized node is created before
or at the edge that references it). -/
theorem referenced_node_guarantee :
    (∀ (d x : String),
      (extractDiagramType ((processedLines d).headD []) = "flowchart"
        ∨ extractDiagramType ((processedLines d).headD []) = "graph") →
      (∀ l ∈ (processedLines d).tail, declaresB flowClassify x l = false) →
      (∃ l ∈ (processedLines d).tail, refsB flowClassify x l = true) →
      (nodeIds (analyzeDiagram d)).count x = 1)
    ∧ (∀ (d x : String),
      extractDiagramType ((processedLines d).headD []) = "sequenceDiagram" →
      (∀ l ∈ (processedLines d).tail, declaresB seqClassify x l = false) →
      (∃ l ∈ (processedLines d).tail, refsB seqClassify x l = true) →
      (nodeIds (analyzeDiagram d)).count x = 1)
    ∧ (∀ (d x : String),
      extractDiagramType ((processedLines d).headD []) = "stateDiagram" →
      (∀ l ∈ (processedLines d).tail, declaresB stateClassify x l = false) →
      (∃ l ∈ (processedLines d).tail, refsB stateClassify x l = true) →
      (nodeIds (analyzeDiagram d)).count x = 1)
    ∧ (∀ (mk : String → DiagramNode) (cl : List Char → LineAct) (dir : Option String)
        (pre : List (List Char)) (c : DiagramConnection),
      (∀ y, (mk y).id = y) →
      (∀ (l : List Char) (f t : String) (c' : DiagramConnection),
        cl l = .edge f t c' → c'.from_ = f ∧ c'.to_ = t) →
      c ∈ (buildRun mk cl (initialBuild dir) pre).conns →
      c.from_ ∈ (buildRun mk cl (initialBuild dir) pre).nodes.map DiagramNode.id
      ∧ c.to_ ∈ (buildRun mk cl (initialBuild dir) pre).nodes.map DiagramNode.id) := by
  refine ⟨?_, ?_, ?_, ?_⟩
  · intro d x htype hdecl href
    have hne : jsTrim d ≠ "" := by
      intro hb
      rw [processedLines_eq_nil hb] at htype
      rcases htype with h | h <;> exact absurd h (by decide)
    rw [analyzeDiagram_eq_finish hne, analyzeDispatch_flow htype (processedLines d)]
    show ((buildRun mkFlowRef flowClassify (initialBuild (some "TD"))
      (processedLines d).tail).nodes.map DiagramNode.id).count x = 1
    exact buildRun_ref_count mkFlowRef flowClassify (fun y => rfl) _ (some "TD") x hdecl href
  · intro d x htype hdecl href
    have hne : jsTrim d ≠ "" := by
      intro hb
      rw [processedLines_eq_nil hb] at htype
      exact absurd htype (by decide)
    rw [analyzeDiagram_eq_finish hne, htype, analyzeDispatch_seq]
    show ((buildRun mkSeqRef seqClassify (initialBuild none)
      (processedLines d).tail).nodes.map DiagramNode.id).count x = 1
    exact buildRun_ref_count mkSeqRef seqClassify (fun y => rfl) _ none x hdecl href
  · intro d x htype hdecl href
    have hne : jsTrim d ≠ "" := by
      intro hb
      rw [processedLines_eq_nil hb] at htype
      exact absurd htype (by decide)
    rw [analyzeDiagram_eq_finish hne, htype, analyzeDispatch_state]
    show ((buildRun mkStateRef stateClassify (initialBuild none)
      (processedLines d).tail).nodes.map DiagramNode.id).count x = 1
    exact buildRun_ref_count mkStateRef stateClassify (fun y => rfl) _ none x hdecl href
  · intro mk cl dir pre c hmk hok hmem
    refine buildRun_conns_closed mk cl hmk hok pre (initialBuild dir) ?_ ?_ c hmem
    · intro c' hc'
      exact absurd hc' (by simp [initialBuild])
    · intro y
      simp [initialBuild]

/-- C4 witness: the flowchart conjunct at `"flowchart TD\nA --> B"` for the
referenced but undeclared id `B`, and the ordering conjunct at a concrete
builder run. -/
theorem referenced_node_guarantee_witness :
    (nodeIds (analyzeDiagram "flowchart TD\nA --> B")).count "B" = 1
    ∧ (({ from_ := "A", to_ := "B", type := "arrow" } : DiagramConnection).from_
        ∈ (buildRun mkFlowRef flowClassify (initialBuild (some "TD"))
            ["A --> B".toList]).nodes.map DiagramNode.id
      ∧ ({ from_ := "A", to_ := "B", type := "arrow" } : DiagramConnection).to_
        ∈ (buildRun mkFlowRef flowClassify (initialBuild (some "TD"))
            ["A --> B".toList]).nodes.map DiagramNode.id) :=
  ⟨referenced_node_guarantee.1 "flowchart TD\nA --> B" "B"
      (by decide) (by decide) (by decide),
    referenced_node_guarantee.2.2.2 mkFlowRef flowClassify (some "TD")
      ["A --> B".toList] { from_ := "A", to_ := "B", type := "arrow" }
      (fun y => rfl) flowClassify_edge_ok (by decide)⟩

/-! ## Node-id uniqueness under disciplined declarations -/

theorem mem_declIds {cl : List Char → LineAct} {x : String} {l' : List Char}
    {v : List (List Char)} (hm : l' ∈ v) (hd : declaresB cl x l' = true) :
    x ∈ declIds cl v := by
  unfold declaresB at hd
  cases hc : cl l' with
  | decl n =>
    rw [hc] at hd
    simp only [beq_iff_eq] at hd
    unfold declIds
    refine List.mem_filterMap.2 ⟨l', hm, ?_⟩
    rw [hc]
    show (some n.id : Option String) = some x
    rw [hd]
  | skip => rw [hc] at hd; simp at hd
  | setDir dd => rw [hc] at hd; simp at hd
  | edge f t c => rw [hc] at hd; simp at hd

theorem declIds_cons_skip {cl : List Char → LineAct} {l : List Char}
    {v : List (List Char)} (hc : cl l = .skip) :
    declIds cl (l :: v) = declIds cl v := by
  unfold declIds
  rw [List.filterMap_cons, hc]

theorem declIds_cons_dir {cl : List Char → LineAct} {l : List Char}
    {v : List (List Char)} {dd : String} (hc : cl l = .setDir dd) :
    declIds cl (l :: v) = declIds cl v := by
  unfold declIds
  rw [List.filterMap_cons, hc]

theorem declIds_cons_edge {cl : List Char → LineAct} {l : List Char}
    {v : List (List Char)} {f t : String} {c : DiagramConnection}
    (hc : cl l = .edge f t c) :
    declIds cl (l :: v) = declIds cl v := by
  unfold declIds
  rw [List.filterMap_cons, hc]

theorem declIds_cons_decl {cl : List Char → LineAct} {l : List Char}
    {v : List (List Char)} {n : DiagramNode} (hc : cl l = .decl n) :
    declIds cl (l :: v) = n.id :: declIds cl v := by
  unfold declIds
  rw [List.filterMap_cons, hc]

theorem edgeEnds_edge {cl : List Char → LineAct} {l : List Char}
    {f t : String} {c : DiagramConnection} (hc : cl l = .edge f t c) :
    edgeEnds cl l = [f, t] := by
  unfold edgeEnds
  rw [hc]

theorem noLateDecl_cons {cl : List Char → LineAct} {l : List Char}
    {v : List (List Char)} (h : noLateDecl cl (l :: v) = true) :
    ((edgeEnds cl l).all
      (fun x => (l :: v).all (fun l' => !declaresB cl x l')) = true)
    ∧ noLateDecl cl v = true := by
  unfold noLateDecl at h
  rw [Bool.and_eq_true] at h
  exact h

theorem noLateDecl_endpoint {cl : List Char → LineAct} {l : List Char}
    {v : List (List Char)} {x : String}
    (hall : (edgeEnds cl l).all
      (fun y => (l :: v).all (fun l' => !declaresB cl y l')) = true)
    (hx : x ∈ edgeEnds cl l) {l' : List Char} (hl' : l' ∈ l :: v) :
    declaresB cl x l' = false := by
  have h := List.all_eq_true.1 (List.all_eq_true.1 hall x hx) l' hl'
  rw [Bool.not_eq_true'] at h
  exact h

/-- When declaration lines declare pairwise-distinct ids and no id is
declared at or after a line that references it, every id occurs in the node
list at most once (the count invariant of `buildStep_count_inv` is
maintained along the whole walk). -/
theorem buildRun_count_nodup (mk : String → DiagramNode) (cl : List Char → LineAct)
    (hmk : ∀ y, (mk y).id = y) :
    ∀ (r : List (List Char)) (s : BuildState) (x : String),
      (declIds cl r).Nodup → noLateDecl cl r = true →
      ((s.nodes.map DiagramNode.id).count x = if x ∈ s.seen then 1 else 0) →
      (x ∈ s.seen → ∀ l ∈ r, declaresB cl x l = false) →
      ((buildRun mk cl s r).nodes.map DiagramNode.id).count x
        = if x ∈ (buildRun mk cl s r).seen then 1 else 0 := by
  intro r
  induction r with
  | nil => intro s x _ _ hJ _; exact hJ
  | cons l v ih =>
    intro s x h1 h2 hJ hnd
    rcases noLateDecl_cons h2 with ⟨h2h, h2v⟩
    rw [buildRun]
    have hstep := buildStep_count_inv mk cl hmk hJ
      (fun hx => hnd hx l (List.mem_cons_self _ _))
    refine ih (buildStep mk cl s l) x ?_ h2v hstep ?_
    · cases hc : cl l with
      | skip => rw [declIds_cons_skip hc] at h1; exact h1
      | setDir dd => rw [declIds_cons_dir hc] at h1; exact h1
      | decl n => rw [declIds_cons_decl hc] at h1; exact h1.of_cons
      | edge f t c => rw [declIds_cons_edge hc] at h1; exact h1
    · intro hx l' hl'
      cases hc : cl l with
      | skip =>
        rw [buildStep_skip hc] at hx
        exact hnd hx l' (List.mem_cons_of_mem _ hl')
      | setDir dd =>
        rw [buildStep_dir hc] at hx
        exact hnd hx l' (List.mem_cons_of_mem _ hl')
      | decl n =>
        rw [buildStep_decl hc] at hx
        dsimp only at hx
        rcases List.mem_append.1 hx with hxo | hxn
        · exact hnd hxo l' (List.mem_cons_of_mem _ hl')
        · rcases List.mem_singleton.1 hxn with rfl
          rw [declIds_cons_decl hc] at h1
          rcases List.nodup_cons.1 h1 with ⟨hnotin, _⟩
          rcases Bool.eq_false_or_eq_true (declaresB cl n.id l') with ht | hf
          · exact absurd (mem_declIds hl' ht) hnotin
          · exact hf
      | edge f t c =>
        rw [buildStep_edge hc] at hx
        dsimp only at hx
        rcases ensureNode_seen_inv hx with hx2 | rfl
        · rcases ensureNode_seen_inv hx2 with hx3 | rfl
          · exact hnd hx3 l' (List.mem_cons_of_mem _ hl')
          · exact noLateDecl_endpoint h2h
              (by rw [edgeEnds_edge hc]; exact List.mem_cons_self _ _)
              (List.mem_cons_of_mem _ hl')
        · exact noLateDecl_endpoint h2h
            (by rw [edgeEnds_edge hc]; exact List.mem_cons_of_mem _ (List.mem_singleton.2 rfl))
            (List.mem_cons_of_mem _ hl')

theorem buildRun_nodup (mk : String → DiagramNode) (cl : List Char → LineAct)
    (hmk : ∀ y, (mk y).id = y) (r : List (List Char)) (dir : Option String)
    (h1 : (declIds cl r).Nodup) (h2 : noLateDecl cl r = true) :
    ((buildRun mk cl (initialBuild dir) r).nodes.map DiagramNode.id).Nodup := by
  rw [List.nodup_iff_count_le_one]
  intro x
  rw [buildRun_count_nodup mk cl hmk r (initialBuild dir) x h1 h2
    (by simp [initialBuild]) (fun hx => absurd hx (by simp [initialBuild]))]
  split <;> omega

/-- C6 counterexample: the input `"flowchart TD\nA[x]\nA[y]"` declares the
id `A` on two lines and the analyzer pushes one node record per declaration
line without deduplication, so the output node list carries `A` twice. -/
theorem nodeIds_nodup_counterexample :
    ¬(nodeIds (analyzeDiagram "flowchart TD\nA[x]\nA[y]")).Nodup := by
  decide

/-- C6 (amended): node ids in `analyzeDiagram`'s output are unique for every
input text in which (a) the declaration lines declare pairwise-distinct ids
and (b) no line declares an id at or after a line that references it as an
edge endpoint.  (Without (a) a repeated declaration duplicates its id, and
without (b) a declaration after a reference duplicates the synthesized
node.) -/
theorem analyzeDiagram_nodeIds_nodup (d : String)
    (h1 : (declIds (classifierOf (extractDiagramType ((processedLines d).headD [])))
      (processedLines d).tail).Nodup)
    (h2 : noLateDecl (classifierOf (extractDiagramType ((processedLines d).headD [])))
      (processedLines d).tail = true) :
    (nodeIds (analyzeDiagram d)).Nodup := by
  by_cases hb : jsTrim d = ""
  · unfold analyzeDiagram
    rw [if_pos hb]
    exact List.nodup_nil
  · rw [analyzeDiagram_eq_finish hb]
    by_cases hf : extractDiagramType ((processedLines d).headD []) = "flowchart"
        ∨ extractDiagramType ((processedLines d).headD []) = "graph"
    · rw [analyzeDispatch_flow hf (processedLines d)]
      rw [show classifierOf (extractDiagramType ((processedLines d).headD []))
          = flowClassify from by unfold classifierOf; rw [if_pos hf]] at h1 h2
      show ((buildRun mkFlowRef flowClassify (initialBuild (some "TD"))
        (processedLines d).tail).nodes.map DiagramNode.id).Nodup
      exact buildRun_nodup mkFlowRef flowClassify (fun y => rfl) _ _ h1 h2
    · by_cases hs : extractDiagramType ((processedLines d).headD []) = "sequenceDiagram"
      · rw [hs] at h1 h2 ⊢
        rw [analyzeDispatch_seq]
        rw [show classifierOf "sequenceDiagram" = seqClassify from by
            unfold classifierOf
            rw [if_neg (by decide), if_pos rfl]] at h1 h2
        show ((buildRun mkSeqRef seqClassify (initialBuild none)
          (processedLines d).tail).nodes.map DiagramNode.id).Nodup
        exact buildRun_nodup mkSeqRef seqClassify (fun y => rfl) _ _ h1 h2
      · by_cases hcl : extractDiagramType ((processedLines d).headD []) = "classDiagram"
        · rw [hcl] at h1 h2 ⊢
          rw [analyzeDispatch_class]
          rw [show classifierOf "classDiagram" = classClassify from by
              unfold classifierOf
              rw [if_neg (by decide), if_neg (by decide), if_pos rfl]] at h1 h2
          show ((buildRun mkClassRef classClassify (initialBuild none)
            (processedLines d).tail).nodes.map DiagramNode.id).Nodup
          exact buildRun_nodup mkClassRef classClassify (fun y => rfl) _ _ h1 h2
        · by_cases hst : extractDiagramType ((processedLines d).headD []) = "stateDiagram"
          · rw [hst] at h1 h2 ⊢
            rw [analyzeDispatch_state]
            rw [show classifierOf "stateDiagram" = stateClassify from by
                unfold classifierOf
                rw [if_neg (by decide), if_neg (by decide), if_neg (by decide), if_pos rfl]]
              at h1 h2
            show ((buildRun mkStateRef stateClassify (initialBuild none)
              (processedLines d).tail).nodes.map DiagramNode.id).Nodup
            exact buildRun_nodup mkStateRef stateClassify (fun y => rfl) _ _ h1 h2
          · rw [show analyzeDispatch (extractDiagramType ((processedLines d).headD []))
                (processedLines d) = analyzeGeneric (processedLines d) from by
                unfold analyzeDispatch
                rw [if_neg hf, if_neg hs, if_neg hcl, if_neg hst]]
            exact List.nodup_nil

/-- C6 witness: the amended theorem applied to
`"flowchart TD\nA[x]\nA --> B"` (one declaration of `A` before the edge that
references it, `B` only synthesized). -/
theorem analyzeDiagram_nodeIds_nodup_witness :
    (nodeIds (analyzeDiagram "flowchart TD\nA[x]\nA --> B")).Nodup :=
  analyzeDiagram_nodeIds_nodup "flowchart TD\nA[x]\nA --> B" (by decide) (by decide)

end MermaidUI
